import Mathlib

/-!
# Verification of the TrueLinki submittal-review agent

Shallow embedding of the deterministic PDF review pipeline
(`src/app/api/chat/route.ts`), the hybrid search layer
(`src/lib/vector-store.ts`) and the offline graph-construction writer
(the ingestion script concatenated into `vector-store.ts`), together with
proofs of the behavioural claims about them.

Conventions:
* JavaScript strings are Lean `String`s; similarity scores are `ℚ`
  (floating point rounding plays no role in the verified properties).
* JavaScript regular-expression tests are translated into executable
  Lean matchers specialised to the exact patterns of the source;
  case-insensitivity is realised by lowercasing (faithful on the ASCII
  texts involved), `\w` is `[A-Za-z0-9_]`, `\s` the ASCII whitespace set.
* Fallible external collaborators (PDF extractor, analyzer, retrieval,
  graph store, text generation) are explicit `Except`/oracle parameters,
  so a thrown exception is an `error` value.
-/

namespace TrueLinki

/-! ## Basic string machinery -/

/-- JS `\w` word character: `[A-Za-z0-9_]`. -/
def isWordChar (c : Char) : Bool :=
  c.isAlphanum || c = '_'

/-- ASCII whitespace as matched by JS `\s` on the texts involved. -/
def isJsWs (c : Char) : Bool :=
  c = ' ' || c = '\t' || c = '\n' || c = '\r' || c = '\x0b' || c = '\x0c'

/-- JS `toLowerCase` (ASCII; kernel-reducible form of `String.toLower`). -/
def lowerData (s : String) : List Char :=
  s.data.map Char.toLower

def lowerStr (s : String) : String :=
  String.mk (lowerData s)

/-- `listStarts s p` : `s` starts with `p`. -/
def listStarts : List Char → List Char → Bool
  | _, [] => true
  | [], _ :: _ => false
  | c :: cs, p :: ps => c = p && listStarts cs ps

/-- `strStarts s p` : string `s` starts with string `p`. -/
def strStarts (s p : String) : Bool :=
  listStarts s.data p.data

/-- Plain (case-sensitive) substring occurrence. -/
def listHasSub (pat : List Char) : List Char → Bool
  | [] => listStarts [] pat
  | c :: cs => listStarts (c :: cs) pat || listHasSub pat cs

def hasSub (s pat : String) : Bool :=
  listHasSub pat.data s.data

/-- A JS `\b` holds before a word-char position iff the previous character
(if any) is not a word character. All patterns we anchor start and end with
word characters, so this one-sided check is exact. -/
def boundaryBefore : Option Char → Bool
  | none => true
  | some c => !isWordChar c

/-- `p` is a prefix of `s`, and if `rb` then a `\b` holds right after it. -/
def prefixWithRB : List Char → Bool → List Char → Bool
  | [], rb, s =>
    !rb || (match s with | [] => true | c :: _ => !isWordChar c)
  | p :: ps, rb, s =>
    match s with
    | [] => false
    | c :: cs => p = c && prefixWithRB ps rb cs

/-- Scan `s` for an occurrence of the literal word `pat`, with a leading
`\b` required when `lb` and a trailing `\b` required when `rb`.
`prev` is the character preceding the current position. -/
def scanWord (lb rb : Bool) (pat : List Char) : Option Char → List Char → Bool
  | prev, s =>
    ((!lb || boundaryBefore prev) && prefixWithRB pat rb s) ||
    (match s with
     | [] => false
     | c :: cs => scanWord lb rb pat (some c) cs)

/-- One alternative of a JS alternation regex: a literal word (already
lowercase) with optional word boundaries at either end. -/
structure WordPat where
  lb : Bool
  word : String
  rb : Bool

/-- Case-insensitive test of one alternative against `s`. -/
def wpMatch (wp : WordPat) (s : String) : Bool :=
  scanWord wp.lb wp.rb wp.word.data none (lowerData s)

/-- Test of an alternation `alt₁|alt₂|…` against `s` (case-insensitive). -/
def altsMatch (alts : List WordPat) (s : String) : Bool :=
  alts.any (fun wp => wpMatch wp s)

/-! ## Document analysis data model

`SubmittalAnalysis` is produced by the external structured-analysis
collaborator (`@/lib/submittal-analyzer`, outside this repository's
verified sources); its shape is exactly the set of fields the pipeline in
`route.ts` reads. Optional fields are `Option`; the `properties` of a
material are key/value pairs. -/

structure MaterialInfo where
  name : String
  manufacturer : Option String
  supplier : Option String
  standard : Option String
  properties : List (String × String)

structure CertificateInfo where
  type : String
  issuer : Option String
  reference : Option String

structure TestResultInfo where
  test : String
  result : String
  requirement : Option String

structure SubmittalAnalysis where
  documentType : String
  title : String
  project : Option String
  contractor : Option String
  materials : List MaterialInfo
  standardsCited : List String
  certificates : List CertificateInfo
  testResults : List TestResultInfo
  drsItems : List String
  keyFindings : List String
  suggestedQCSQueries : List String

/-! ## Scope gate (`assessDocumentScope` and its signal tables) -/

structure ScopeSignal where
  label : String
  alts : List WordPat

/-- `NON_CONSTRUCTION_SIGNALS` from `route.ts`. Each JS regex
`/a|b|c/i` is decomposed into its alternatives; a `\b` written in the
source attaches only to the alternative it is adjacent to. -/
def nonConstructionSignals : List ScopeSignal :=
  [ ⟨"internship", [⟨true, "internship", true⟩]⟩,
    ⟨"employment proof", [⟨true, "employment proof", true⟩]⟩,
    ⟨"confidentiality agreement", [⟨true, "confidentiality agreement", true⟩]⟩,
    ⟨"academic transcript",
      [⟨true, "transcript", false⟩, ⟨false, "gpa", false⟩,
       ⟨false, "semester", false⟩, ⟨false, "student id", true⟩]⟩,
    ⟨"curriculum vitae",
      [⟨true, "curriculum vitae", false⟩, ⟨false, "resume", false⟩,
       ⟨false, "cv", true⟩]⟩,
    ⟨"banking document",
      [⟨true, "bank statement", false⟩, ⟨false, "iban", false⟩,
       ⟨false, "account number", false⟩, ⟨false, "swift", true⟩]⟩,
    ⟨"medical record",
      [⟨true, "medical report", false⟩, ⟨false, "diagnosis", false⟩,
       ⟨false, "patient", false⟩, ⟨false, "hospital", true⟩]⟩,
    ⟨"identity document",
      [⟨true, "passport", false⟩, ⟨false, "national id", false⟩,
       ⟨false, "identity card", false⟩, ⟨false, "visa", true⟩]⟩,
    ⟨"legal affidavit",
      [⟨true, "affidavit", false⟩, ⟨false, "notary", false⟩,
       ⟨false, "power of attorney", true⟩]⟩,
    ⟨"student", [⟨true, "student", true⟩]⟩,
    ⟨"university", [⟨true, "university", false⟩, ⟨false, "college", true⟩]⟩,
    ⟨"human resources",
      [⟨true, "human resources", false⟩, ⟨false, "hr", true⟩]⟩ ]

/-- `CONSTRUCTION_SIGNALS` from `route.ts`. -/
def constructionSignals : List ScopeSignal :=
  [ ⟨"construction submittal", [⟨true, "submittal", true⟩]⟩,
    ⟨"construction scope",
      [⟨true, "construction", false⟩, ⟨false, "civil", false⟩,
       ⟨false, "structural", false⟩, ⟨false, "architectural", true⟩]⟩,
    ⟨"method statement", [⟨true, "method statement", true⟩]⟩,
    ⟨"shop drawing", [⟨true, "shop drawing", true⟩]⟩,
    ⟨"material data",
      [⟨true, "material submittal", false⟩, ⟨false, "product data", false⟩,
       ⟨false, "technical data sheet", true⟩]⟩,
    ⟨"construction testing",
      [⟨true, "test report", false⟩, ⟨false, "mill certificate", false⟩,
       ⟨false, "mix design", true⟩]⟩,
    ⟨"construction standards",
      [⟨true, "qcs", false⟩, ⟨false, "astm", false⟩, ⟨false, "bs", false⟩,
       ⟨false, "en", false⟩, ⟨false, "iso", false⟩, ⟨false, "nfpa", true⟩]⟩,
    ⟨"construction approvals",
      [⟨true, "qcdd", false⟩, ⟨false, "qcd", false⟩,
       ⟨false, "civil defence", true⟩]⟩ ]

/-- `CONSTRUCTION_KEYWORD_PATTERN`: the grouped regex
`\b(a|b|…)\b` gives every alternative both boundaries. -/
def constructionKeywordAlts : List WordPat :=
  [ "submittal", "construction", "civil", "architectural", "structural",
    "method statement", "shop drawing", "product data",
    "technical data sheet", "concrete", "cement", "steel", "masonry",
    "mortar", "asphalt", "aggregate", "pipe", "valve", "cable", "earthing",
    "fire", "life safety", "qcdd", "qcd", "mix design", "test report",
    "mill certificate", "qcs", "astm", "nfpa", "bs", "en", "iso"
  ].map (fun w => ⟨true, w, true⟩)

def constructionKeywordTest (s : String) : Bool :=
  altsMatch constructionKeywordAlts s

/-- `collectSignalMatches` from `route.ts`. -/
def collectSignalMatches (text : String) (signals : List ScopeSignal) :
    List String :=
  (signals.filter (fun sig => altsMatch sig.alts text)).map (fun sig => sig.label)

/-- The title regex of `titleLooksNonConstruction`:
`/\binternship|employment|cv|resume|confidentiality|passport|visa|bank statement|medical\b/i`. -/
def titleNonConstructionAlts : List WordPat :=
  [ ⟨true, "internship", false⟩, ⟨false, "employment", false⟩,
    ⟨false, "cv", false⟩, ⟨false, "resume", false⟩,
    ⟨false, "confidentiality", false⟩, ⟨false, "passport", false⟩,
    ⟨false, "visa", false⟩, ⟨false, "bank statement", false⟩,
    ⟨false, "medical", true⟩ ]

def optStr : Option String → String
  | some s => s
  | none => ""

/-- The per-material text joined in `assessDocumentScope`. -/
def materialText (m : MaterialInfo) : String :=
  String.intercalate " " [m.name, optStr m.manufacturer, optStr m.supplier, optStr m.standard]

def certificateText (c : CertificateInfo) : String :=
  String.intercalate " " [c.type, optStr c.issuer, optStr c.reference]

def testText (t : TestResultInfo) : String :=
  String.intercalate " " [t.test, t.result, optStr t.requirement]

/-- The text a material contributes to `hasConstructionMaterials`. -/
def materialKeywordText (m : MaterialInfo) : String :=
  m.name ++ " " ++ optStr m.standard ++ " " ++
    String.intercalate " " (m.properties.map (fun p => p.1 ++ " " ++ p.2))

def certificateKeywordText (c : CertificateInfo) : String :=
  c.type ++ " " ++ optStr c.issuer ++ " " ++ optStr c.reference

def testKeywordText (t : TestResultInfo) : String :=
  t.test ++ " " ++ t.result ++ " " ++ optStr t.requirement

/-- `analysisText` of `assessDocumentScope` (empty when analysis is null). -/
def scopeAnalysisText : Option SubmittalAnalysis → String
  | none => ""
  | some a =>
    String.intercalate " "
      [ a.title, optStr a.project, optStr a.contractor,
        String.intercalate " " a.keyFindings,
        String.intercalate " " a.standardsCited,
        String.intercalate " " (a.materials.map materialText),
        String.intercalate " " (a.certificates.map certificateText),
        String.intercalate " " (a.testResults.map testText) ]

/-- ``combinedText = `${analysisText}\n${rawText.slice(0, 6000)}` ``. -/
def scopeCombinedText (analysis : Option SubmittalAnalysis) (rawText : String) :
    String :=
  scopeAnalysisText analysis ++ "\n" ++ String.mk (rawText.data.take 6000)

structure ScopeAssessment where
  isOutOfScope : Bool
  nonConstructionMatches : List String
  constructionMatches : List String
  hasStructuredConstructionEvidence : Bool
  outOfScopeScore : Nat
  inScopeScore : Nat

/-- `assessDocumentScope` from `route.ts`. -/
def assessDocumentScope (analysis : Option SubmittalAnalysis)
    (rawText : String) : ScopeAssessment :=
  let combinedText := scopeCombinedText analysis rawText
  let nonCons := collectSignalMatches combinedText nonConstructionSignals
  let cons := collectSignalMatches combinedText constructionSignals
  let hasConstructionStandards :=
    match analysis with
    | none => false
    | some a => a.standardsCited.any constructionKeywordTest
  let hasConstructionMaterials :=
    match analysis with
    | none => false
    | some a => a.materials.any (fun m => constructionKeywordTest (materialKeywordText m))
  let hasConstructionCertificates :=
    match analysis with
    | none => false
    | some a => a.certificates.any (fun c => constructionKeywordTest (certificateKeywordText c))
  let hasConstructionTests :=
    match analysis with
    | none => false
    | some a => a.testResults.any (fun t => constructionKeywordTest (testKeywordText t))
  let hasConstructionInRawText := constructionKeywordTest combinedText
  let knownConstructionDocType :=
    match analysis with
    | none => false
    | some a => a.documentType ≠ "other"
  let hasStructuredConstructionEvidence :=
    match analysis with
    | none => false
    | some a =>
      hasConstructionMaterials || hasConstructionTests ||
      hasConstructionCertificates || hasConstructionStandards ||
      a.drsItems.length > 0
  let titleLooksNonConstruction :=
    match analysis with
    | none => false
    | some a => altsMatch titleNonConstructionAlts a.title
  let otherType :=
    match analysis with
    | none => false
    | some a => a.documentType = "other"
  let outOfScopeScore :=
    (if otherType then 2 else 0) +
    (if !knownConstructionDocType then 1 else 0) +
    (if !hasStructuredConstructionEvidence then 2 else 0) +
    (if nonCons.length ≥ 1 then 2 else 0) +
    (if nonCons.length ≥ 3 then 1 else 0) +
    (if !hasConstructionInRawText then 1 else 0)
  let inScopeScore :=
    (if knownConstructionDocType then 2 else 0) +
    (if hasStructuredConstructionEvidence then 4 else 0) +
    (if cons.length ≥ 1 then 2 else 0) +
    (if cons.length ≥ 3 then 1 else 0) +
    (if hasConstructionInRawText then 1 else 0)
  let isOutOfScope :=
    (titleLooksNonConstruction && !hasStructuredConstructionEvidence) ||
    (outOfScopeScore ≥ 5 && outOfScopeScore > inScopeScore + 1)
  { isOutOfScope := isOutOfScope
    nonConstructionMatches := nonCons
    constructionMatches := cons
    hasStructuredConstructionEvidence := hasStructuredConstructionEvidence
    outOfScopeScore := outOfScopeScore
    inScopeScore := inScopeScore }

/-! ## Small sequential regex matcher

Used for the handful of source patterns that involve `\.?`, `\s*` or a
literal sequence. In every pattern below a `\s*` is followed by a literal
starting with a non-space character and a `\.?` by `\s*` plus a non-dot
literal, so the greedy, non-backtracking interpretation is exact. -/

inductive RTok
  | lit (w : String)
  | wsStar
  | optDot

def matchToks : List RTok → List Char → Option (List Char)
  | [], s => some s
  | RTok.lit w :: rest, s =>
    if listStarts s w.data then matchToks rest (s.drop w.data.length) else none
  | RTok.wsStar :: rest, s => matchToks rest (s.dropWhile isJsWs)
  | RTok.optDot :: rest, s =>
    match s with
    | '.' :: cs => matchToks rest cs
    | _ => matchToks rest s

def scanToks (toks : List RTok) : List Char → Bool
  | [] => (matchToks toks []).isSome
  | c :: cs => (matchToks toks (c :: cs)).isSome || scanToks toks cs

def scanToksStr (toks : List RTok) (s : String) : Bool :=
  scanToks toks (lowerData s)

/-! ## Retrieval results, quality filters, ranking -/

/-- `QCSSearchResult` from `vector-store.ts` (scores as rationals). -/
structure QCSSearchResult where
  id : String
  score : ℚ
  sectionNumber : String
  sectionTitle : String
  partNumber : String
  partTitle : String
  clauseNumber : String
  clauseTitle : String
  pageStart : Nat
  pageEnd : Nat
  content : String
  isGraph : Bool
deriving DecidableEq

inductive RefSource
  | vector
  | graph
deriving DecidableEq

/-- `RetrievedRef` from `route.ts`. -/
structure RetrievedRef where
  reference : String
  content : String
  relevanceScore : ℚ
  source : RefSource
deriving DecidableEq

/-- JS `String.prototype.trim` (ASCII whitespace suffices here). -/
def jsTrim (s : String) : String :=
  String.mk (((s.data.dropWhile isJsWs).reverse.dropWhile isJsWs).reverse)

/-- Shared tail analysis for `/\.{3,}\s*\d+\s*$/`: from the reversed
characters, strip trailing whitespace, require a digit run, strip
whitespace, and return the characters before a run of at least three
dots (still reversed), or `none` when the suffix pattern is absent. -/
def stripDotLeader? (s : String) : Option (List Char) :=
  let r1 := s.data.reverse.dropWhile isJsWs
  let digits := r1.takeWhile Char.isDigit
  if digits.isEmpty then none
  else
    let r3 := (r1.dropWhile Char.isDigit).dropWhile isJsWs
    if (r3.takeWhile (fun c => c = '.')).length < 3 then none
    else some (r3.dropWhile (fun c => c = '.'))

/-- `/\.{3,}\s*\d+\s*$/.test title` — a table-of-contents artifact. -/
def tocArtifactTest (s : String) : Bool :=
  (stripDotLeader? s).isSome

/-- `cleanClauseTitle` from `route.ts`:
`title.replace(/\s*\.{3,}\s*\d+\s*$/, "").trim()`. -/
def cleanClauseTitle (title : String) : String :=
  match stripDotLeader? title with
  | none => jsTrim title
  | some revRest => jsTrim (String.mk ((revRest.dropWhile isJsWs).reverse))

/-- `/^(?:scope|introduction|references)$/i.test (title.trim())`. -/
def genericHeadingTest (s : String) : Bool :=
  lowerStr (jsTrim s) = "scope" || lowerStr (jsTrim s) = "introduction" ||
    lowerStr (jsTrim s) = "references"

/-- The boilerplate form-field regex of `filterResults` (alternation of
literal phrases plus the `yes\s*☐\s*no\s*☐` pattern). -/
def boilerplateTest (s : String) : Bool :=
  altsMatch
    [ ⟨false, "company name", false⟩, ⟨false, "inspection date", false⟩,
      ⟨false, "plant location", false⟩, ⟨false, "plant no/s", false⟩,
      ⟨false, "plant manufacturer", false⟩, ⟨false, "plant id no", false⟩,
      ⟨false, "approval certificate no", false⟩,
      ⟨false, "contact a plant", false⟩ ] s ||
  scanToksStr
    [RTok.lit "yes", RTok.wsStar, RTok.lit "☐", RTok.wsStar,
     RTok.lit "no", RTok.wsStar, RTok.lit "☐"] s

def minContentChars : Nat := 80
def maxTotalRefs : Nat := 6
def maxTotalGraphRefs : Nat := 4
def maxQueries : Nat := 8

/-- The row predicate of `filterResults` in `route.ts`. -/
def keepRow (r : QCSSearchResult) : Bool :=
  !(jsTrim r.clauseNumber = "") &&
  !((jsTrim r.content).length < minContentChars) &&
  !(tocArtifactTest r.clauseTitle) &&
  !(genericHeadingTest r.clauseTitle && r.isGraph) &&
  !(boilerplateTest r.clauseTitle)

/-- `filterResults` from `route.ts`. -/
def filterResults (results : List QCSSearchResult) : List QCSSearchResult :=
  results.filter keepRow

/-- `buildReference` from `route.ts`. -/
def buildReference (r : QCSSearchResult) : RetrievedRef :=
  { reference :=
      "QCS 2024 Section " ++ r.sectionNumber ++ ": " ++ r.sectionTitle ++
      ", Part " ++ r.partNumber ++ ": " ++ r.partTitle ++
      ", Clause " ++ r.clauseNumber ++ ": " ++ cleanClauseTitle r.clauseTitle ++
      " (Pages " ++ toString r.pageStart ++ "-" ++ toString r.pageEnd ++ ")"
    content := r.content
    relevanceScore := r.score
    source := if r.isGraph then RefSource.graph else RefSource.vector }

/-- The dedup key `` `${sectionNumber}|${partNumber}|${clauseNumber}` ``. -/
def clauseKey (r : QCSSearchResult) : String :=
  r.sectionNumber ++ "|" ++ r.partNumber ++ "|" ++ r.clauseNumber

/-- The replacement test of the dedup `Map` in `rankAndSelect`. -/
def preferNew (existing row : QCSSearchResult) : Bool :=
  (existing.isGraph && !row.isGraph) ||
  (existing.isGraph = row.isGraph && existing.score < row.score)

/-- One `byClause.set` step: a JS `Map` keeps the position of an existing
key and appends new keys, so the accumulator is an insertion-ordered list
with unique clause keys. -/
def upsertRow : List QCSSearchResult → QCSSearchResult → List QCSSearchResult
  | [], row => [row]
  | e :: rest, row =>
    if clauseKey e = clauseKey row then
      (if preferNew e row then row else e) :: rest
    else
      e :: upsertRow rest row

/-- The dedup loop of `rankAndSelect` (`Map` values in insertion order). -/
def dedupByClause (rows : List QCSSearchResult) : List QCSSearchResult :=
  rows.foldl upsertRow []

/-- The sort comparator as a boolean `≤`: vector before graph, then score
descending. `rankLe a b` iff the JS comparator returns `≤ 0` on `(a, b)`. -/
def rankLe (a b : QCSSearchResult) : Bool :=
  if a.isGraph = b.isGraph then b.score ≤ a.score else !a.isGraph

/-- Stable insertion used to model `Array.prototype.sort` (stable per the
ECMAScript spec): a later element goes after every earlier element that
compares less-or-equal to it. -/
def insertRanked (a : QCSSearchResult) :
    List QCSSearchResult → List QCSSearchResult
  | [] => [a]
  | b :: rest =>
    if rankLe b a then b :: insertRanked a rest else a :: b :: rest

/-- Stable sort by `rankLe`; agrees with the JS stable sort because both
are stable and both order by the same total preorder. -/
def sortRanked (rows : List QCSSearchResult) : List QCSSearchResult :=
  rows.foldl (fun acc r => insertRanked r acc) []

/-- The selection loop of `rankAndSelect`: graph rows beyond the graph cap
are skipped; the loop stops once `maxTotal` rows are selected.
`selLen`/`graphCount` mirror `selected.length` and `graphCount`. -/
def selectLoop (maxTotal maxGraph : Nat) :
    List QCSSearchResult → Nat → Nat → List QCSSearchResult
  | [], _, _ => []
  | row :: rest, selLen, graphCount =>
    if row.isGraph && graphCount ≥ maxGraph then
      selectLoop maxTotal maxGraph rest selLen graphCount
    else
      if selLen + 1 ≥ maxTotal then [row]
      else
        row :: selectLoop maxTotal maxGraph rest (selLen + 1)
          (if row.isGraph then graphCount + 1 else graphCount)

/-- The selected rows of `rankAndSelect` before reference formatting. -/
def rankAndSelectRows (rows : List QCSSearchResult)
    (maxTotal maxGraph : Nat) : List QCSSearchResult :=
  selectLoop maxTotal maxGraph (sortRanked (dedupByClause rows)) 0 0

/-- `rankAndSelect` from `route.ts`. -/
def rankAndSelect (rows : List QCSSearchResult) (maxTotal maxGraph : Nat) :
    List RetrievedRef :=
  (rankAndSelectRows rows maxTotal maxGraph).map buildReference

/-! ## Query builder -/

/-- Collapse whitespace runs to single spaces (`replace(/\s+/g, " ")`);
`prevWs` records whether the previous character was part of a run. -/
def collapseWsAux : Bool → List Char → List Char
  | _, [] => []
  | prevWs, c :: cs =>
    if isJsWs c then
      if prevWs then collapseWsAux true cs else ' ' :: collapseWsAux true cs
    else c :: collapseWsAux false cs

def collapseWsStr (s : String) : String :=
  String.mk (collapseWsAux false s.data)

/-- `normalizeQuery` from `route.ts`:
`q.trim().toLowerCase().replace(/\s+/g, " ")`. -/
def normalizeQuery (q : String) : String :=
  collapseWsStr (lowerStr (jsTrim q))

def baselineQueries : List String :=
  [ "method statement submittal requirements qcs 2024",
    "qcs 2024 fire life safety product approval qcd qcdd requirements",
    "qcs 2024 concrete mix design and submittal requirements",
    "qcs 2024 earthworks compaction and field density testing",
    "qcs 2024 masonry block work and mortar requirements",
    "qcs 2024 quality assurance inspection testing requirements" ]

/-- The dedup loop of `buildDeterministicQueries`; `count` mirrors
`deduped.length` and the loop stops once `MAX_QUERIES` is reached. -/
def buildQueriesLoop : List String → List String → Nat → List String
  | [], _, _ => []
  | q :: rest, seen, count =>
    let key := normalizeQuery q
    if key ∈ seen then buildQueriesLoop rest seen count
    else if count + 1 ≥ maxQueries then [jsTrim q]
    else jsTrim q :: buildQueriesLoop rest (key :: seen) (count + 1)

/-- `buildDeterministicQueries` from `route.ts`. -/
def buildDeterministicQueries (analysis : Option SubmittalAnalysis) :
    List String :=
  let suggested := match analysis with
    | some a => a.suggestedQCSQueries
    | none => []
  let merged := (suggested ++ baselineQueries).filter
    (fun q => (jsTrim q).length > 0)
  buildQueriesLoop merged [] 0

/-! ## Critical-reason rules -/

/-- `/q\.?\s*c\.?\s*s\.?\s*2014|qcs\s*2014/i`. -/
def qcs2014Test (s : String) : Bool :=
  scanToksStr
    [RTok.lit "q", RTok.optDot, RTok.wsStar, RTok.lit "c", RTok.optDot,
     RTok.wsStar, RTok.lit "s", RTok.optDot, RTok.wsStar, RTok.lit "2014"] s ||
  scanToksStr [RTok.lit "qcs", RTok.wsStar, RTok.lit "2014"] s

/-- `/qcs\s*2024/i`. -/
def qcs2024Test (s : String) : Bool :=
  scanToksStr [RTok.lit "qcs", RTok.wsStar, RTok.lit "2024"] s

/-- `/fire|life safety|qcdd|qcd|alarm|firefighting|passive fire/i`. -/
def fireScopeTest (s : String) : Bool :=
  altsMatch
    [ ⟨false, "fire", false⟩, ⟨false, "life safety", false⟩,
      ⟨false, "qcdd", false⟩, ⟨false, "qcd", false⟩,
      ⟨false, "alarm", false⟩, ⟨false, "firefighting", false⟩,
      ⟨false, "passive fire", false⟩ ] s

/-- `/qcd|qcdd|civil defence/i`. -/
def qcdEvidenceTest (s : String) : Bool :=
  altsMatch
    [ ⟨false, "qcd", false⟩, ⟨false, "qcdd", false⟩,
      ⟨false, "civil defence", false⟩ ] s

def qcs2014Reason : String :=
  "The submittal references QCS 2014 and does not explicitly confirm full compliance with QCS 2024."

def fireSafetyReason : String :=
  "Fire life safety scope is present, but explicit QCD/QCDD approval evidence for products/systems is not provided in this submittal."

/-- `detectCriticalReasons` from `route.ts`. -/
def detectCriticalReasons : Option SubmittalAnalysis → List String
  | none => []
  | some a =>
    let standards := String.intercalate " " a.standardsCited
    let findings := String.intercalate " " a.keyFindings
    let projectText :=
      (a.title ++ " " ++ optStr a.project ++ " " ++
        String.intercalate " " (a.materials.map (fun m => m.name))) |> lowerStr
    let combined := lowerStr (standards ++ " " ++ findings)
    let referencesQcs2014 :=
      qcs2014Test (standards ++ " " ++ findings ++ " " ++ a.title)
    let confirmsQcs2024 := qcs2024Test combined
    let fireScope := fireScopeTest projectText
    let hasQcdEvidence := a.certificates.any (fun c =>
      qcdEvidenceTest (c.type ++ " " ++ optStr c.issuer ++ " " ++ optStr c.reference))
    (if referencesQcs2014 && !confirmsQcs2024 then [qcs2014Reason] else []) ++
    (if fireScope && !hasQcdEvidence then [fireSafetyReason] else [])

/-! ## Out-of-scope detection on generated review text
(`isOutOfScopeReviewText`) -/

/-- `\bREJECTED\b` within an `[\s\S]{0,80}` gap; `fuel` is the remaining
gap budget, `prev` the character before the current position. -/
def rejAfterGap : Nat → Option Char → List Char → Bool
  | 0, prev, s =>
    boundaryBefore prev && prefixWithRB "rejected".data true s
  | fuel + 1, prev, s =>
    (boundaryBefore prev && prefixWithRB "rejected".data true s) ||
    (match s with
     | [] => false
     | c :: cs => rejAfterGap fuel (some c) cs)

/-- `/###\s*VERDICT[\s\S]{0,80}\bREJECTED\b/i` on lowercased text. -/
def vrAttempt (s : List Char) : Bool :=
  match matchToks [RTok.lit "###", RTok.wsStar, RTok.lit "verdict"] s with
  | some rest => rejAfterGap 80 (some 't') rest
  | none => false

def scanVR : List Char → Bool
  | [] => vrAttempt []
  | c :: cs => vrAttempt (c :: cs) || scanVR cs

def dashWs (c : Char) : Bool :=
  c = '-' || isJsWs c

/-- `out[-\s]of[-\s]scope\b` at the current position. -/
def outScopeAt : List Char → Bool
  | 'o' :: 'u' :: 't' :: d1 :: 'o' :: 'f' :: d2 :: rest =>
    dashWs d1 && dashWs d2 && prefixWithRB "scope".data true rest
  | _ => false

def scanOutScope : Option Char → List Char → Bool
  | prev, s =>
    (boundaryBefore prev && outScopeAt s) ||
    (match s with
     | [] => false
     | c :: cs => scanOutScope (some c) cs)

/-- The `.*` gap of `\bqcs .* not applicable\b` (no line terminators). -/
def dotStarNotApplicable : List Char → Bool
  | [] => false
  | c :: cs =>
    prefixWithRB " not applicable".data true (c :: cs) ||
    (if c = '\n' || c = '\r' then false else dotStarNotApplicable cs)

def qcsNotApplicableAt (s : List Char) : Bool :=
  match matchToks [RTok.lit "qcs "] s with
  | some rest => dotStarNotApplicable rest
  | none => false

def scanQcsNA : Option Char → List Char → Bool
  | prev, s =>
    (boundaryBefore prev && qcsNotApplicableAt s) ||
    (match s with
     | [] => false
     | c :: cs => scanQcsNA (some c) cs)

/-- `isOutOfScopeReviewText` from `route.ts`. -/
def isOutOfScopeReviewText (text : String) : Bool :=
  let low := lowerData text
  let hasRejectedVerdict :=
    scanVR low || scanWord true true "rejected".data none low
  if !hasRejectedVerdict then false
  else
    scanOutScope none low ||
    altsMatch
      [ ⟨true, "outside the scope", true⟩,
        ⟨true, "not a construction submittal", true⟩,
        ⟨true, "unrelated to construction", true⟩,
        ⟨true, "non-construction document", true⟩ ] text ||
    scanQcsNA none low

/-! ## Report assembly -/

/-- `buildCitationSection` from `route.ts`. -/
def buildCitationSection (refs : List RetrievedRef) : String :=
  if refs.isEmpty then ""
  else
    "### CITATIONS\n" ++
      String.intercalate "\n" (refs.map (fun r => "- " ++ r.reference))

/-- `forcedVerdictBlock` of the report prompt. -/
def forcedVerdictBlock (reasons : List String) : String :=
  if reasons.length > 0 then
    "Mandatory verdict: NEEDS REVISION\nReasons:\n" ++
      String.intercalate "\n" (reasons.map (fun r => "- " ++ r))
  else
    "Use the evidence to determine verdict. APPROVED is allowed only when explicit evidence for all critical requirements is present."

/-- JSON string escaping as performed by `JSON.stringify`. -/
def jsonEscapeChar (c : Char) : String :=
  if c = '"' then "\\\""
  else if c = '\\' then "\\\\"
  else if c = '\n' then "\\n"
  else if c = '\r' then "\\r"
  else if c = '\t' then "\\t"
  else if c = '\x08' then "\\b"
  else if c = '\x0c' then "\\f"
  else if c.toNat < 32 then
    let d1 := c.toNat / 16
    let d2 := c.toNat % 16
    let hex := fun (n : Nat) => String.mk [(String.mk ['0'] ++ "123456789abcdef").data.getD n '0']
    "\\u00" ++ hex d1 ++ hex d2
  else String.mk [c]

def jsonStr (s : String) : String :=
  "\"" ++ String.join (s.data.map jsonEscapeChar) ++ "\""

def jsonStrOrNull : Option String → String
  | some s => jsonStr s
  | none => "null"

/-- A string array as printed by `JSON.stringify(·, null, 2)` at nesting
depth one. -/
def jsonStrArray (xs : List String) : String :=
  match xs with
  | [] => "[]"
  | _ =>
    "[\n" ++
      String.intercalate ",\n" (xs.map (fun x => "    " ++ jsonStr x)) ++
      "\n  ]"

/-- `analysisSummary` of the report prompt: `JSON.stringify` of the
six projected fields with 2-space indent (nullable optional fields), or
the fixed note when the analysis is unavailable. -/
def analysisSummary : Option SubmittalAnalysis → String
  | none => "\x7b \"note\": \"analysis unavailable\" \x7d"
  | some a =>
    "\x7b\n  \"documentType\": " ++ jsonStr a.documentType ++
    ",\n  \"title\": " ++ jsonStr a.title ++
    ",\n  \"project\": " ++ jsonStrOrNull a.project ++
    ",\n  \"contractor\": " ++ jsonStrOrNull a.contractor ++
    ",\n  \"standardsCited\": " ++ jsonStrArray a.standardsCited ++
    ",\n  \"keyFindings\": " ++ jsonStrArray a.keyFindings ++
    "\n\x7d"

/-- The `[C1] … Excerpt: …` evidence block of the report prompt. -/
def evidenceBlock (refs : List RetrievedRef) : String :=
  String.intercalate "\n\n"
    (refs.enum.map (fun p =>
      "[C" ++ toString (p.1 + 1) ++ "] " ++ p.2.reference ++
      "\nExcerpt: " ++ String.mk ((collapseWsStr p.2.content).data.take 420)))

/-- `reportPrompt` from `route.ts`. -/
def reportPrompt (analysis : Option SubmittalAnalysis)
    (refs : List RetrievedRef) (reasons : List String) : String :=
  "You are preparing a grounded construction compliance review.\n\n" ++
  forcedVerdictBlock reasons ++
  "\n\nRules:\n- Use ONLY the evidence provided below.\n- Do NOT fabricate clauses or page numbers.\n- Do NOT include a CITATIONS section (it is appended separately).\n- Keep output concise and structured.\n- Use at most 6 citations total. Do not cite unrelated sections.\n- Do not mention internal labels like \"Submittal analysis snapshot\" in the final response.\n- When referring to document evidence, use user-facing phrasing such as \"As stated in the submitted method statement\".\n- Sections required exactly in this order:\n  1) ### VERDICT\n  2) ### DOCUMENT OVERVIEW\n  3) ### SUMMARY\n  4) ### DETAILED ANALYSIS\n  5) ### RECOMMENDATIONS\n- For DETAILED ANALYSIS, include 4-6 numbered checks and cite evidence inline like [C1], [C3].\n\nDocument evidence extracted from the submitted submittal:\n" ++
  analysisSummary analysis ++
  "\n\nValidated QCS evidence:\n" ++
  evidenceBlock refs

/-! ## Fail-closed report templates -/

def extractionFailureReport : String :=
  "### VERDICT\nNEEDS REVISION\n\n### DOCUMENT OVERVIEW\nThe PDF could not be processed for grounded review.\n\n### SUMMARY\nThis response is fail-closed: a compliance verdict cannot be approved without grounded evidence from the uploaded document and QCS retrieval.\n\n### DETAILED ANALYSIS\n- PDF extraction failed, so document evidence could not be reliably analyzed.\n- A grounded compliance decision requires extracted submittal evidence and retrieved QCS clauses.\n\n### RECOMMENDATIONS\n- Re-upload the PDF and retry the review.\n- Ensure the document is readable and not corrupted.\n- If the issue persists, provide a text-based export alongside the PDF."

def outOfScopeReport (signalSummary : String) : String :=
  "### VERDICT\nREJECTED\n\n### DOCUMENT OVERVIEW\nThe uploaded file appears to be a non-construction document and is outside the scope of QCS submittal compliance review.\n\n### SUMMARY\nThe document is not a construction submittal, so QCS clause-by-clause compliance checking is not applicable. The request is rejected as out-of-scope for this reviewer.\n\n### DETAILED ANALYSIS\n1. Document signals indicate non-construction context (" ++
  signalSummary ++
  ").\n2. The extracted content does not provide structured construction-submittal evidence (materials, test reports, certificates, or DRS items).\n3. Because the file is out-of-scope, QCS clause citations are intentionally omitted.\n4. A standards-based compliance review can proceed only after a relevant construction submittal is uploaded.\n\n### RECOMMENDATIONS\n- Upload a construction-related document (for example: material submittal, method statement, mix design, test report, shop drawing, or product certificate).\n- If this upload was accidental, replace it with the intended project submittal PDF."

def emptyEvidenceReport (criticalReasons : List String) : String :=
  "### VERDICT\nNEEDS REVISION\n\n### DOCUMENT OVERVIEW\nThe submitted method statement could not be grounded to valid QCS references after deterministic retrieval.\n\n### SUMMARY\nThis is a fail-closed result: because no validated references were retrieved, the system cannot issue an evidence-backed approval.\n\n### DETAILED ANALYSIS\n- Retrieval produced zero validated QCS references after quality filters.\n- Without grounded citations, any detailed compliance conclusion would risk fabrication.\n" ++
  (if criticalReasons.length > 0 then
    "- Critical gap(s) detected:\n" ++
      String.intercalate "\n" (criticalReasons.map (fun r => "  - " ++ r))
  else "") ++
  "\n\n### RECOMMENDATIONS\n- Re-run with a clearer PDF/OCR source if available.\n- Provide explicit QCS 2024 alignment statements in the submittal.\n- Provide required fire-life-safety approvals/certifications where applicable."

def genFallbackReport : String :=
  "### VERDICT\nNEEDS REVISION\n\n### DOCUMENT OVERVIEW\nThis submittal is a method statement and requires evidence-backed alignment with QCS 2024.\n\n### SUMMARY\nThe review could not complete full narrative generation, but grounded evidence indicates revision is required before approval.\n\n### DETAILED ANALYSIS\n1. The submittal must be aligned to QCS 2024 requirements.\n2. Fire life safety scope requires explicit approval evidence for relevant products/systems.\n3. Method statement claims should be tied to measurable QA/QC criteria and cited clauses.\n4. Existing historical approval stamps do not replace current-cycle compliance review.\n\n### RECOMMENDATIONS\n- Update all legacy references to QCS 2024.\n- Provide explicit product approvals/certifications where required.\n- Re-submit with clear clause-level compliance statements."

def internalErrorReport : String :=
  "### VERDICT\nNEEDS REVISION\n\n### DOCUMENT OVERVIEW\nThe review pipeline encountered an internal error.\n\n### SUMMARY\nThis response is fail-closed to avoid ungrounded approvals.\n\n### DETAILED ANALYSIS\n- The deterministic review pipeline failed before completing a grounded comparison.\n- A reliable verdict requires successful extraction, retrieval, and evidence-based generation.\n\n### RECOMMENDATIONS\n- Retry the same document once.\n- If failure persists, upload a text-based export alongside the PDF."

/-! ## The deterministic review pipeline (`POST`, PDF path)

External collaborators are oracle fields of `PipelineDeps`; a collaborator
that throws is an `error`/`fail` value. The run is recorded as the ordered
progress stages, the `source-url` citation entries written to the stream,
and the streamed text segments, each tagged with whether the text was
asserted by pipeline code or produced by the generation step. -/

inductive Origin
  | pipeline
  | generation
deriving DecidableEq

inductive GenResult
  | ok (text : String)
  | fail (partialText : String)

structure PDFExtraction where
  rawText : String

structure PipelineDeps where
  extract : Except String PDFExtraction
  analyze : Except String SubmittalAnalysis
  retrieve : String → Except String (List QCSSearchResult)
  generate : String → GenResult

structure ReviewRun where
  stages : List String
  sources : List RetrievedRef
  segments : List (Origin × String)

def allStages : List String :=
  ["uploaded", "extracting", "analyzing", "retrieving", "drafting"]

/-- The analysis used by the pipeline: a throwing
`analyzeSubmittalContent` is caught and degrades to a null analysis. -/
def depAnalysis (deps : PipelineDeps) : Option SubmittalAnalysis :=
  match deps.analyze with
  | Except.ok a => some a
  | Except.error _ => none

/-- The `${signalSummary}` interpolation of the out-of-scope report. -/
def signalSummaryText (scope : ScopeAssessment) : String :=
  if scope.nonConstructionMatches.length > 0 then
    String.intercalate ", " scope.nonConstructionMatches
  else "non-construction indicators"

/-- The deterministic PDF review path of `POST` in `route.ts`. -/
def runReview (deps : PipelineDeps) : ReviewRun :=
  match deps.extract with
  | Except.error _ =>
    { stages := ["uploaded", "extracting", "drafting"]
      sources := []
      segments := [(Origin.pipeline, extractionFailureReport)] }
  | Except.ok pdf =>
    let analysis : Option SubmittalAnalysis := depAnalysis deps
    let scope := assessDocumentScope analysis pdf.rawText
    if scope.isOutOfScope then
      { stages := ["uploaded", "extracting", "analyzing", "drafting"]
        sources := []
        segments := [(Origin.pipeline, outOfScopeReport (signalSummaryText scope))] }
    else
      let queries := buildDeterministicQueries analysis
      let rawResults := queries.map (fun q =>
        match deps.retrieve q with
        | Except.ok rs => rs
        | Except.error _ => [])
      let filtered := filterResults rawResults.flatten
      let refs := rankAndSelect filtered maxTotalRefs maxTotalGraphRefs
      let criticalReasons := detectCriticalReasons analysis
      if refs.isEmpty then
        { stages := allStages
          sources := []
          segments := [(Origin.pipeline, emptyEvidenceReport criticalReasons)] }
      else
        let prompt := reportPrompt analysis refs criticalReasons
        match deps.generate prompt with
        | GenResult.ok genText =>
          let citationText :=
            if isOutOfScopeReviewText genText then ""
            else buildCitationSection refs
          { stages := allStages
            sources := refs
            segments :=
              (Origin.generation, genText) ::
                (if citationText = "" then []
                 else [(Origin.pipeline, "\n\n" ++ citationText)]) }
        | GenResult.fail partialText =>
          let genText := partialText ++ genFallbackReport
          let citationText :=
            if isOutOfScopeReviewText genText then ""
            else buildCitationSection refs
          { stages := allStages
            sources := refs
            segments :=
              (Origin.generation, partialText) ::
                (Origin.pipeline, genFallbackReport) ::
                (if citationText = "" then []
                 else [(Origin.pipeline, "\n\n" ++ citationText)]) }

/-- The full streamed report text of a run. -/
def reportText (run : ReviewRun) : String :=
  String.join (run.segments.map (fun seg => seg.2))

/-- `assertsVerdict t v` : the report text `t` opens by stating verdict
`v` (`### VERDICT` header immediately followed by `v`). -/
def assertsVerdict (t v : String) : Bool :=
  strStarts t ("### VERDICT\n" ++ v ++ "\n")

/-! ## Hybrid search (`vector-store.ts`)

The Retrieval Index is modelled as the list of scored hits a vector query
returns plus a fetch-by-id metadata lookup (Upstash `fetch` returns one
slot per requested id, `null`/metadata-less slots are skipped). The graph
store operations live in `graph-store.ts` (outside the sources) and are
oracle parameters; a store that is unreachable surfaces as an `error`
from the entity lookup, exactly what the `try`/`catch` in `hybridSearch`
guards. -/

structure ChunkMeta where
  sectionNumber : String
  sectionTitle : String
  partNumber : String
  partTitle : String
  clauseNumber : String
  clauseTitle : String
  pageStart : Nat
  pageEnd : Nat
  content : String
deriving DecidableEq

structure VectorHit where
  id : String
  score : ℚ
  metadata : Option ChunkMeta

def metaToResult (id : String) (score : ℚ) (isGraph : Bool)
    (m : ChunkMeta) : QCSSearchResult :=
  { id := id
    score := score
    sectionNumber := m.sectionNumber
    sectionTitle := m.sectionTitle
    partNumber := m.partNumber
    partTitle := m.partTitle
    clauseNumber := m.clauseNumber
    clauseTitle := m.clauseTitle
    pageStart := m.pageStart
    pageEnd := m.pageEnd
    content := m.content
    isGraph := isGraph }

/-- `searchQCS` from `vector-store.ts`, as a function of the scored hits
the Retrieval Index returns: metadata-less hits are dropped, the rest map
to results with `isGraph := false`. -/
def searchQCS (hits : List VectorHit) : List QCSSearchResult :=
  hits.filterMap (fun h =>
    h.metadata.map (fun m => metaToResult h.id h.score false m))

/-- `hybridSearch` from `vector-store.ts`. `getEnts` is
`getEntitiesForChunks`, `traverse` is `traverseGraph` (both from the
external `graph-store.ts`), `fetchMeta` the index fetch-by-id. Only the
entity lookup is wrapped in `try`/`catch` by the source. -/
def hybridSearch (hits : List VectorHit)
    (getEnts : List String → Except Unit (List String))
    (traverse : List String → Nat → Nat → Except Unit (List String))
    (fetchMeta : String → Option ChunkMeta)
    (graphHops maxGraphChunks : Nat) : Except Unit (List QCSSearchResult) :=
  let vectorResults := searchQCS hits
  let vectorChunkIds := vectorResults.map (fun r => r.id)
  match getEnts vectorChunkIds with
  | Except.error _ => Except.ok vectorResults
  | Except.ok entityIds =>
    if entityIds.isEmpty then Except.ok vectorResults
    else
      match traverse entityIds graphHops maxGraphChunks with
      | Except.error e => Except.error e
      | Except.ok graphChunkIds =>
        let newChunkIds :=
          graphChunkIds.filter (fun id => !(vectorChunkIds.contains id))
        if newChunkIds.isEmpty then Except.ok vectorResults
        else
          let graphResults := newChunkIds.filterMap (fun id =>
            (fetchMeta id).map (fun m =>
              metaToResult id (mkRat 1 2) true m))
          Except.ok (vectorResults ++ graphResults)

/-! ## Graph-construction writer (ingestion script) -/

/-- `normalizeEntityName`: lowercase, collapse `[^a-z0-9]+` runs to `_`,
strip a single leading and trailing `_` (`/^_|_$/g`). -/
def isLowerAlnum (c : Char) : Bool :=
  ('a' ≤ c && c ≤ 'z') || ('0' ≤ c && c ≤ '9')

def collapseNonAlnum : Bool → List Char → List Char
  | _, [] => []
  | inRun, c :: cs =>
    if isLowerAlnum c then c :: collapseNonAlnum false cs
    else if inRun then collapseNonAlnum true cs
    else '_' :: collapseNonAlnum true cs

def stripEdgeUnderscore (s : List Char) : List Char :=
  let s1 := match s with
    | '_' :: rest => rest
    | _ => s
  match s1.reverse with
  | '_' :: rest => rest.reverse
  | _ => s1

def normalizeEntityName (name : String) : String :=
  String.mk (stripEdgeUnderscore (collapseNonAlnum false (lowerData name)))

/-- `entityId` from the ingestion script. -/
def entityId (type name : String) : String :=
  type ++ ":" ++ normalizeEntityName name

structure EntityOut where
  name : String
  type : String
  description : Option String
deriving DecidableEq

structure RelOut where
  source : String
  target : String
  type : String
deriving DecidableEq

structure GroupResult where
  groupIndex : Nat
  entities : List EntityOut
  relationships : List RelOut

structure Extraction where
  groups : List GroupResult

structure ChunkGroup where
  chunkIds : List String
  combinedContent : String
  sectionNumber : String
  sectionTitle : String
  partNumber : String
  partTitle : String
  tokenEstimate : Nat

/-- Redis values: plain string (`set`), hash (`hset`), set (`sadd`). -/
inductive StoreVal
  | sval (v : String)
  | hval (fields : List (String × String))
  | setval (members : List String)
deriving DecidableEq

/-- The key-value store as an insertion-ordered association list. -/
abbrev Store := List (String × StoreVal)

/-- The write operations issued through the Redis pipeline. -/
inductive WOp
  | hset (key : String) (fields : List (String × String))
  | setKey (key : String) (v : String)
  | sadd (key : String) (member : String)

def WOp.key : WOp → String
  | WOp.hset k _ => k
  | WOp.setKey k _ => k
  | WOp.sadd k _ => k

def upsertField : List (String × String) → (String × String) →
    List (String × String)
  | [], p => [p]
  | (k, v) :: rest, p =>
    if k = p.1 then (k, p.2) :: rest else (k, v) :: upsertField rest p

/-- `HSET` sets the given fields, keeping other fields of the hash. -/
def hsetMerge (fields : List (String × String)) :
    Option StoreVal → StoreVal
  | some (StoreVal.hval olds) => StoreVal.hval (fields.foldl upsertField olds)
  | _ => StoreVal.hval fields

/-- `SADD` adds the member if absent. -/
def saddVal (m : String) : Option StoreVal → StoreVal
  | some (StoreVal.setval ms) =>
    if m ∈ ms then StoreVal.setval ms else StoreVal.setval (ms ++ [m])
  | _ => StoreVal.setval [m]

/-- Update the value at `k` in place, appending the key when new. -/
def upsertKV : Store → String → (Option StoreVal → StoreVal) → Store
  | [], k, f => [(k, f none)]
  | (k', v) :: rest, k, f =>
    if k' = k then (k', f (some v)) :: rest
    else (k', v) :: upsertKV rest k f

def applyOp (s : Store) : WOp → Store
  | WOp.hset k fields => upsertKV s k (hsetMerge fields)
  | WOp.setKey k v => upsertKV s k (fun _ => StoreVal.sval v)
  | WOp.sadd k m => upsertKV s k (saddVal m)

def applyOps (ops : List WOp) (s : Store) : Store :=
  ops.foldl applyOp s

/-- The writes for one extracted entity: record, name index entry, and
chunk-membership links (in pipeline order). -/
def entOps (group : ChunkGroup) (ent : EntityOut) : List WOp :=
  let eid := entityId ent.type ent.name
  WOp.hset ("g:ent:" ++ eid)
      ([("name", ent.name), ("type", ent.type)] ++
        (match ent.description with
         | some d => [("description", d)]
         | none => [])) ::
    WOp.setKey ("g:ent:idx:" ++ normalizeEntityName ent.name) eid ::
    group.chunkIds.map (fun cid => WOp.sadd ("g:chunk:" ++ cid ++ ":ents") eid)

/-- `srcEntity?.type || "MATERIAL"`: the first entity of the group whose
name equals the endpoint name, falling back to `MATERIAL` when no entity
matches (or its type is the empty string, which is falsy in JS). -/
def endpointType (entities : List EntityOut) (name : String) : String :=
  match entities.find? (fun e => e.name = name) with
  | some e => if e.type = "" then "MATERIAL" else e.type
  | none => "MATERIAL"

structure RelWrite where
  relId : String
  srcId : String
  tgtId : String
  relType : String
  provenance : List String
deriving DecidableEq

def relWrite (entities : List EntityOut) (group : ChunkGroup)
    (rel : RelOut) : RelWrite :=
  let srcId := entityId (endpointType entities rel.source) rel.source
  let tgtId := entityId (endpointType entities rel.target) rel.target
  { relId := srcId ++ "--" ++ rel.type ++ "--" ++ tgtId
    srcId := srcId
    tgtId := tgtId
    relType := rel.type
    provenance := group.chunkIds }

/-- The writes for one extracted relationship: record plus both adjacency
set entries. -/
def relOps (entities : List EntityOut) (group : ChunkGroup)
    (rel : RelOut) : List WOp :=
  let w := relWrite entities group rel
  [ WOp.hset ("g:rel:" ++ w.relId)
      [("type", w.relType), ("sourceEntity", w.srcId),
       ("targetEntity", w.tgtId),
       ("chunkIds", String.intercalate "," w.provenance)],
    WOp.sadd ("g:ent:" ++ w.srcId ++ ":rels") w.relId,
    WOp.sadd ("g:ent:" ++ w.tgtId ++ ":rels") w.relId ]

/-- All writes for one `groupResult`; a `groupIndex` outside the batch is
skipped (`if (!group) continue`). The `pipeline.exec` guard of the source
only skips executing an empty pipeline, which writes nothing anyway. -/
def groupOps (groups : List ChunkGroup) (gr : GroupResult) : List WOp :=
  match groups.get? gr.groupIndex with
  | none => []
  | some group =>
    ((gr.entities.map (entOps group)).flatten) ++
      ((gr.relationships.map (relOps gr.entities group)).flatten)

def graphOps (extraction : Extraction) (groups : List ChunkGroup) :
    List WOp :=
  (extraction.groups.map (groupOps groups)).flatten

/-- `writeGraphBatch` from the ingestion script, as its effect on the
store. -/
def writeGraphBatch (extraction : Extraction) (groups : List ChunkGroup)
    (s : Store) : Store :=
  applyOps (graphOps extraction groups) s

def storeKeys (s : Store) : List String :=
  s.map (fun kv => kv.1)

/-- The relationship records persisted for a batch. -/
def batchRelWrites (extraction : Extraction) (groups : List ChunkGroup) :
    List RelWrite :=
  (extraction.groups.map (fun gr =>
    match groups.get? gr.groupIndex with
    | none => []
    | some group => gr.relationships.map (relWrite gr.entities group))).flatten

/-- The canonical ids of the entities extracted in one group. -/
def groupEntityIds (gr : GroupResult) : List String :=
  gr.entities.map (fun e => entityId e.type e.name)

/-! ## Concrete instances used by witnesses and counterexamples -/

/-- The document of the Scope Gate test case: title
"Employee Confidentiality Agreement", no materials, tests, certificates,
standards or DRS items; the remaining fields are free. -/
def c4Analysis (docType : String) (project contractor : Option String)
    (keyFindings suggested : List String) : SubmittalAnalysis :=
  { documentType := docType
    title := "Employee Confidentiality Agreement"
    project := project
    contractor := contractor
    materials := []
    standardsCited := []
    certificates := []
    testResults := []
    drsItems := []
    keyFindings := keyFindings
    suggestedQCSQueries := suggested }

def c4Deps : PipelineDeps :=
  { extract := Except.ok ⟨""⟩
    analyze := Except.ok (c4Analysis "other" none none [] [])
    retrieve := fun _ => Except.error "down"
    generate := fun _ => GenResult.ok "" }

def c10Deps : PipelineDeps :=
  { extract := Except.ok ⟨""⟩
    analyze := Except.error "analysis failed"
    retrieve := fun _ => Except.error "down"
    generate := fun _ => GenResult.ok "" }

def c5Deps : PipelineDeps :=
  { extract := Except.ok ⟨""⟩
    analyze := Except.error "analysis failed"
    retrieve := fun _ => Except.error "index unreachable"
    generate := fun _ => GenResult.ok "" }

def c1Deps : PipelineDeps :=
  { extract := Except.error "corrupt pdf"
    analyze := Except.error "n/a"
    retrieve := fun _ => Except.error "n/a"
    generate := fun _ => GenResult.ok "" }

def meta1 : ChunkMeta :=
  { sectionNumber := "5", sectionTitle := "Concrete"
    partNumber := "3", partTitle := "Mix Design"
    clauseNumber := "5.3.1", clauseTitle := "Strength"
    pageStart := 10, pageEnd := 12
    content := "Concrete strength requirements." }

def meta2 : ChunkMeta :=
  { sectionNumber := "5", sectionTitle := "Concrete"
    partNumber := "3", partTitle := "Mix Design"
    clauseNumber := "5.3.2", clauseTitle := "Curing"
    pageStart := 13, pageEnd := 14
    content := "Concrete curing requirements." }

def vhit1 : VectorHit :=
  { id := "c1", score := mkRat 9 10, metadata := some meta1 }

/-- A document citing only QCS 2014, used for the critical-reason claim. -/
def c3Analysis : SubmittalAnalysis :=
  { documentType := "material_submittal"
    title := "QCS 2014 Submittal"
    project := none
    contractor := none
    materials := []
    standardsCited := ["QCS 2014"]
    certificates := []
    testResults := []
    drsItems := []
    keyFindings := []
    suggestedQCSQueries := [] }

def c3Row : QCSSearchResult :=
  { id := "c1", score := mkRat 9 10
    sectionNumber := "1", sectionTitle := "General"
    partNumber := "1", partTitle := "Submittals"
    clauseNumber := "1.5.2", clauseTitle := "Submittal Requirements"
    pageStart := 3, pageEnd := 4
    content := "Submittals shall comply with the requirements of QCS 2024 including documentation, test certificates and approvals."
    isGraph := false }

/-- A generation output asserting APPROVED despite the forced-verdict
prompt block. -/
def c3ApprovedText : String :=
  "### VERDICT\nAPPROVED\n\n### DOCUMENT OVERVIEW\nMethod statement submittal.\n\n### SUMMARY\nCompliant."

def c3Deps : PipelineDeps :=
  { extract := Except.ok ⟨"concrete submittal"⟩
    analyze := Except.ok c3Analysis
    retrieve := fun _ => Except.ok [c3Row]
    generate := fun _ => GenResult.ok c3ApprovedText }

/-- Rows exercising `rankAndSelect` for the witness. -/
def w2Rows : List QCSSearchResult :=
  [ { c3Row with
      id := "g1"
      clauseNumber := "1.5.2"
      score := mkRat 1 2
      isGraph := true },
    { c3Row with
      id := "v2"
      clauseNumber := "1.5.3"
      score := mkRat 7 10 },
    c3Row ]

/-- An extraction output whose relationship endpoints name no extracted
entity (allowed by the schema, which constrains the names only in prose). -/
def ext9Bad : Extraction :=
  { groups := [ { groupIndex := 0, entities := [],
                  relationships := [⟨"X", "Y", "REFERENCES"⟩] } ] }

def group9 : ChunkGroup :=
  { chunkIds := ["chunk1"], combinedContent := ""
    sectionNumber := "5", sectionTitle := "Concrete"
    partNumber := "3", partTitle := "Mix Design", tokenEstimate := 0 }

/-- A well-formed extraction group: every relationship endpoint names an
extracted entity of the same group. -/
def gr9 : GroupResult :=
  { groupIndex := 0
    entities :=
      [⟨"Portland Cement", "MATERIAL", none⟩,
       ⟨"ASTM C150", "STANDARD", none⟩]
    relationships :=
      [⟨"Portland Cement", "ASTM C150", "MUST_COMPLY_WITH"⟩] }

def ext9Good : Extraction :=
  { groups := [gr9] }

/-- A small extraction batch for the idempotence witness. -/
def ext8 : Extraction := ext9Good

/-- A stored entity record key `g:ent:{eid}` (not the name index
`g:ent:idx:…` and not an adjacency set `…:rels`; an `eid` is
`TYPE:normalized-name` and a normalized name contains no colon). -/
def isEntityRecordKey (k : String) : Bool :=
  strStarts k "g:ent:" && !(strStarts k "g:ent:idx:") && !(hasSub k ":rels")

def isRelRecordKey (k : String) : Bool :=
  strStarts k "g:rel:"

def entityRecordCount (s : Store) : Nat :=
  (storeKeys s).countP isEntityRecordKey

def relRecordCount (s : Store) : Nat :=
  (storeKeys s).countP isRelRecordKey

/-- `Beats e r` : the survivor `e` is at least as preferred as `r` under
the dedup policy, for rows sharing `e`'s clause key: vector-origin wins
over graph-origin, and within the same origin the higher score wins. -/
def Beats (e r : QCSSearchResult) : Prop :=
  clauseKey r = clauseKey e →
    (r.isGraph = false → e.isGraph = false) ∧
    (r.isGraph = e.isGraph → r.score ≤ e.score)

end TrueLinki

namespace TrueLinki

/-! # Proofs -/

set_option maxRecDepth 16384

/-! ## String prefix/substring lemmas -/

theorem strData_append (s t : String) : (s ++ t).data = s.data ++ t.data := by
  cases s
  cases t
  rfl

theorem listStarts_nil_pat (a : List Char) : listStarts a [] = true := by
  cases a <;> rfl

theorem listStarts_mono (p a b : List Char) (h : listStarts a p = true) :
    listStarts (a ++ b) p = true := by
  induction p generalizing a with
  | nil => exact listStarts_nil_pat _
  | cons pc ps ih =>
    cases a with
    | nil => exact absurd h (by simp [listStarts])
    | cons ac as =>
      simp only [listStarts, Bool.and_eq_true] at h
      simp only [List.cons_append, listStarts, Bool.and_eq_true]
      exact ⟨h.1, ih as h.2⟩

theorem listStarts_append_of_le (p a b : List Char)
    (h : p.length ≤ a.length) :
    listStarts (a ++ b) p = listStarts a p := by
  induction p generalizing a with
  | nil => rw [listStarts_nil_pat, listStarts_nil_pat]
  | cons pc ps ih =>
    cases a with
    | nil => simp at h
    | cons ac as =>
      simp only [List.cons_append, listStarts, List.append_eq]
      rw [ih as (by simpa using h)]

theorem strStarts_append_right (a b p : String)
    (h : strStarts a p = true) : strStarts (a ++ b) p = true := by
  unfold strStarts at *
  rw [strData_append]
  exact listStarts_mono _ _ _ h

theorem strStarts_append_of_le (a b p : String)
    (h : p.data.length ≤ a.data.length) :
    strStarts (a ++ b) p = strStarts a p := by
  unfold strStarts
  rw [strData_append]
  exact listStarts_append_of_le _ _ _ h

theorem listHasSub_of_starts (p s : List Char)
    (h : listStarts s p = true) : listHasSub p s = true := by
  cases s with
  | nil => exact h
  | cons c cs => simp only [listHasSub, h, Bool.true_or]

theorem listHasSub_append_right (p s t : List Char)
    (h : listHasSub p t = true) : listHasSub p (s ++ t) = true := by
  induction s with
  | nil => exact h
  | cons c cs ih =>
    simp only [List.cons_append, listHasSub, List.append_eq, ih, Bool.or_true]

theorem hasSub_append_right (s t p : String)
    (h : hasSub t p = true) : hasSub (s ++ t) p = true := by
  unfold hasSub at *
  rw [strData_append]
  exact listHasSub_append_right _ _ _ h

theorem hasSub_of_starts (s p : String)
    (h : strStarts s p = true) : hasSub s p = true :=
  listHasSub_of_starts _ _ h

theorem str_empty_append (t : String) : "" ++ t = t := by
  cases t
  rfl

theorem reportText_single (o : Origin) (t : String) :
    reportText { stages := allStages, sources := [], segments := [(o, t)] } =
      t := by
  show String.join [t] = t
  show List.foldl (· ++ ·) "" [t] = t
  show "" ++ t = t
  exact str_empty_append t

/-! ## Verdict assertions of the fail-closed templates -/

theorem outOfScopeReport_asserts_rejected (s : String) :
    assertsVerdict (outOfScopeReport s) "REJECTED" = true := by
  unfold assertsVerdict outOfScopeReport
  apply strStarts_append_right
  apply strStarts_append_right
  decide

/-! ## C4: scope gate on a confidentiality agreement -/

/-- C4 (part 1): for any document whose title is
"Employee Confidentiality Agreement" and whose materials, standards,
certificates, test results and DRS items are empty, the scope gate fires
through the title-pattern branch: there is no structural construction
evidence and `isOutOfScope` is `true` for every raw text. -/
theorem c4_scope (docType : String) (project contractor : Option String)
    (keyFindings suggested : List String) (rawText : String) :
    (assessDocumentScope
        (some (c4Analysis docType project contractor keyFindings suggested))
        rawText).isOutOfScope = true ∧
    (assessDocumentScope
        (some (c4Analysis docType project contractor keyFindings suggested))
        rawText).hasStructuredConstructionEvidence = false := by
  have htitle :
      altsMatch titleNonConstructionAlts "Employee Confidentiality Agreement" =
        true := by decide
  constructor <;>
    simp [assessDocumentScope, c4Analysis, htitle]

theorem reportText_single_of (run : ReviewRun) (o : Origin) (t : String)
    (h : run.segments = [(o, t)]) : reportText run = t := by
  unfold reportText
  rw [h]
  show "" ++ t = t
  exact str_empty_append t

/-- C4: a `DocumentAnalysis` titled "Employee Confidentiality Agreement"
with empty materials, test results, certificates, standards and DRS items
is declared out of scope through the title-pattern branch (no structural
construction evidence), and the pipeline emits a single pipeline-asserted
REJECTED report with no source references and no citation segment. -/
theorem c4_confidentiality_rejected
    (docType : String) (project contractor : Option String)
    (keyFindings suggested : List String) (rawText : String)
    (deps : PipelineDeps)
    (hext : deps.extract = Except.ok ⟨rawText⟩)
    (hana : deps.analyze =
      Except.ok (c4Analysis docType project contractor keyFindings suggested)) :
    (assessDocumentScope
        (some (c4Analysis docType project contractor keyFindings suggested))
        rawText).isOutOfScope = true ∧
    (assessDocumentScope
        (some (c4Analysis docType project contractor keyFindings suggested))
        rawText).hasStructuredConstructionEvidence = false ∧
    (runReview deps).segments =
      [(Origin.pipeline,
        outOfScopeReport (signalSummaryText (assessDocumentScope
          (some (c4Analysis docType project contractor keyFindings suggested))
          rawText)))] ∧
    (runReview deps).sources = [] ∧
    assertsVerdict (reportText (runReview deps)) "REJECTED" = true := by
  obtain ⟨h1, h2⟩ :=
    c4_scope docType project contractor keyFindings suggested rawText
  have hrun : (runReview deps).segments =
      [(Origin.pipeline,
        outOfScopeReport (signalSummaryText (assessDocumentScope
          (some (c4Analysis docType project contractor keyFindings suggested))
          rawText)))] ∧ (runReview deps).sources = [] := by
    simp only [runReview, hext, depAnalysis, hana]
    rw [if_pos (by simpa using h1)]
    exact ⟨rfl, rfl⟩
  refine ⟨h1, h2, hrun.1, hrun.2, ?_⟩
  rw [reportText_single_of _ _ _ hrun.1]
  exact outOfScopeReport_asserts_rejected _

/-- C4 witness at a fully concrete input. -/
theorem c4_witness :
    (assessDocumentScope (some (c4Analysis "other" none none [] []))
      "").isOutOfScope = true ∧
    (runReview c4Deps).sources = [] ∧
    assertsVerdict (reportText (runReview c4Deps)) "REJECTED" = true :=
  ⟨(c4_confidentiality_rejected "other" none none [] [] "" c4Deps rfl rfl).1,
   (c4_confidentiality_rejected "other" none none [] [] ""
      c4Deps rfl rfl).2.2.2.1,
   (c4_confidentiality_rejected "other" none none [] [] ""
      c4Deps rfl rfl).2.2.2.2⟩

/-! ## C10: a null analysis alone never triggers the scope gate -/

/-- C10: when the structured analysis is unavailable and the raw text
matches none of the non-construction signals, the out-of-scope score
stays below the threshold (≤ 4 < 5), `isOutOfScope` is `false`, and the
run proceeds through the retrieving stage. -/
theorem c10_null_analysis_in_scope (rawText : String) (deps : PipelineDeps)
    (e : String)
    (hext : deps.extract = Except.ok ⟨rawText⟩)
    (hana : deps.analyze = Except.error e)
    (hsig : collectSignalMatches (scopeCombinedText none rawText)
        nonConstructionSignals = []) :
    (assessDocumentScope none rawText).isOutOfScope = false ∧
    (assessDocumentScope none rawText).outOfScopeScore ≤ 4 ∧
    (runReview deps).stages = allStages ∧
    "retrieving" ∈ (runReview deps).stages := by
  have hscope : (assessDocumentScope none rawText).isOutOfScope = false := by
    cases hc : constructionKeywordTest (scopeCombinedText none rawText) <;>
      simp [assessDocumentScope, hsig, hc]
  have hscore : (assessDocumentScope none rawText).outOfScopeScore ≤ 4 := by
    cases hc : constructionKeywordTest (scopeCombinedText none rawText) <;>
      simp [assessDocumentScope, hsig, hc]
  have hstages : (runReview deps).stages = allStages := by
    simp only [runReview, hext, depAnalysis, hana]
    rw [if_neg (by simp [hscope])]
    split <;> first | rfl | split <;> rfl
  exact ⟨hscope, hscore, hstages, by rw [hstages]; decide⟩

/-- C10 witness at a fully concrete input. -/
theorem c10_witness :
    collectSignalMatches (scopeCombinedText none "") nonConstructionSignals =
      [] ∧
    (assessDocumentScope none "").isOutOfScope = false ∧
    "retrieving" ∈ (runReview c10Deps).stages :=
  ⟨by decide,
   (c10_null_analysis_in_scope "" c10Deps "analysis failed" rfl rfl
      (by decide)).1,
   (c10_null_analysis_in_scope "" c10Deps "analysis failed" rfl rfl
      (by decide)).2.2.2⟩

/-! ## C6: graph-store unavailability degrades hybrid search -/

/-- C6: when the entity lookup against the graph store fails (store
unreachable) or yields no entities for the vector-result chunk ids,
`hybridSearch` returns exactly the vector results and does not error. -/
theorem c6_hybrid_degrades_to_vector
    (hits : List VectorHit)
    (getEnts : List String → Except Unit (List String))
    (traverse : List String → Nat → Nat → Except Unit (List String))
    (fetchMeta : String → Option ChunkMeta)
    (graphHops maxGraphChunks : Nat)
    (h : getEnts ((searchQCS hits).map (fun r => r.id)) = Except.error () ∨
         getEnts ((searchQCS hits).map (fun r => r.id)) = Except.ok []) :
    hybridSearch hits getEnts traverse fetchMeta graphHops maxGraphChunks =
      Except.ok (searchQCS hits) := by
  unfold hybridSearch
  rcases h with h | h <;> simp [h]

/-- C6 witness: an unreachable store at a concrete query. -/
theorem c6_witness :
    hybridSearch [vhit1] (fun _ => Except.error ())
      (fun _ _ _ => Except.ok []) (fun _ => none) 2 12 =
      Except.ok (searchQCS [vhit1]) :=
  c6_hybrid_degrades_to_vector [vhit1] (fun _ => Except.error ())
    (fun _ _ _ => Except.ok []) (fun _ => none) 2 12 (Or.inl rfl)

/-! ## C7: hybrid search ordering, synthetic scores, new chunk ids -/

theorem searchQCS_isGraph_false (hits : List VectorHit) :
    ∀ v ∈ searchQCS hits, v.isGraph = false := by
  intro v hv
  rcases List.mem_filterMap.1 hv with ⟨h, _, hmap⟩
  rcases Option.map_eq_some'.1 hmap with ⟨m, _, hval⟩
  rw [← hval]
  rfl

/-- C7: a successful `hybridSearch` result is the vector results
unchanged (hence vector entries, all with `isGraph = false`, precede all
graph entries with no re-sort), followed by graph entries that each carry
the fixed synthetic score `0.5` and a chunk id absent from the vector
results; when the traversal respects its chunk budget, at most
`maxGraphChunks` graph entries are appended. -/
theorem c7_hybrid_shape
    (hits : List VectorHit)
    (getEnts : List String → Except Unit (List String))
    (traverse : List String → Nat → Nat → Except Unit (List String))
    (fetchMeta : String → Option ChunkMeta)
    (graphHops maxGraphChunks : Nat)
    (out : List QCSSearchResult)
    (htrav : ∀ es h mc r, traverse es h mc = Except.ok r → r.length ≤ mc)
    (hrun : hybridSearch hits getEnts traverse fetchMeta graphHops
        maxGraphChunks = Except.ok out) :
    ∃ gs, out = searchQCS hits ++ gs ∧
      (∀ v ∈ searchQCS hits, v.isGraph = false) ∧
      (∀ g ∈ gs, g.isGraph = true ∧ g.score = mkRat 1 2 ∧
        g.id ∉ (searchQCS hits).map (fun r => r.id)) ∧
      gs.length ≤ maxGraphChunks := by
  simp only [hybridSearch] at hrun
  split at hrun
  · -- entity lookup failed: vector-only
    refine ⟨[], ?_, searchQCS_isGraph_false hits, by simp, by simp⟩
    simpa using (Except.ok.inj hrun).symm
  · rename_i entityIds _
    split at hrun
    · -- no entities: vector-only
      refine ⟨[], ?_, searchQCS_isGraph_false hits, by simp, by simp⟩
      simpa using (Except.ok.inj hrun).symm
    · split at hrun
      · exact absurd hrun (by simp)
      · rename_i graphChunkIds htraveq
        split at hrun
        · -- no new chunk ids: vector-only
          refine ⟨[], ?_, searchQCS_isGraph_false hits, by simp, by simp⟩
          simpa using (Except.ok.inj hrun).symm
        · rename_i hnew
          have hout := Except.ok.inj hrun
          refine ⟨_, hout.symm, searchQCS_isGraph_false hits, ?_, ?_⟩
          · intro g hg
            rcases List.mem_filterMap.1 hg with ⟨cid, hcid, hmap⟩
            rcases Option.map_eq_some'.1 hmap with ⟨m, _, hval⟩
            have hgid : g.id = cid := by rw [← hval]; rfl

            have hcontains :
                ((searchQCS hits).map (fun r => r.id)).contains cid = false := by
              have := (List.mem_filter.1 hcid).2
              simpa using this
            refine ⟨by rw [← hval]; rfl, by rw [← hval]; rfl, ?_⟩
            rw [hgid]
            intro hmem
            rw [List.contains_eq_any_beq] at hcontains
            have : ((searchQCS hits).map (fun r => r.id)).any
                (fun x => cid == x) = true := by
              exact List.any_eq_true.2 ⟨cid, hmem, by simp⟩
            rw [this] at hcontains
            exact Bool.true_eq_false.mp hcontains
          · calc (List.filterMap _ _).length
                ≤ (graphChunkIds.filter
                    (fun id =>
                      !(((searchQCS hits).map (fun r => r.id)).contains id))).length :=
                  List.length_filterMap_le _ _
              _ ≤ graphChunkIds.length := List.length_filter_le _ _
              _ ≤ maxGraphChunks := htrav _ _ _ _ htraveq

/-- C7 witness: a concrete traversal adding one new chunk. -/
theorem c7_witness :
    ∃ gs,
      [metaToResult "c1" (mkRat 9 10) false meta1,
        metaToResult "c2" (mkRat 1 2) true meta2] = searchQCS [vhit1] ++ gs ∧
      (∀ v ∈ searchQCS [vhit1], v.isGraph = false) ∧
      (∀ g ∈ gs, g.isGraph = true ∧ g.score = mkRat 1 2 ∧
        g.id ∉ (searchQCS [vhit1]).map (fun r => r.id)) ∧
      gs.length ≤ 12 :=
  c7_hybrid_shape [vhit1] (fun _ => Except.ok ["e1"])
    (fun _ _ mc => Except.ok (List.take mc ["c2"]))
    (fun id => if id = "c2" then some meta2 else none) 2 12
    [metaToResult "c1" (mkRat 9 10) false meta1,
      metaToResult "c2" (mkRat 1 2) true meta2]
    (fun es h mc r hr => by
      injection hr with h1
      rw [← h1, List.length_take]
      exact min_le_left _ _)
    rfl

/-! ## Template verdict lemmas -/

/-- For a template of the shape `head ++ middle ++ tail` whose verdict
pattern fits inside the literal `head`, the verdict assertion only
depends on `head`. -/
theorem assertsVerdict_concat3 (A B C v : String)
    (h : ("### VERDICT\n" ++ v ++ "\n").data.length ≤ A.data.length) :
    assertsVerdict ((A ++ B) ++ C) v = assertsVerdict A v := by
  unfold assertsVerdict
  rw [strStarts_append_of_le _ _ _ ?hab, strStarts_append_of_le _ _ _ h]
  case hab =>
    refine le_trans h ?_
    rw [strData_append, List.length_append]
    exact Nat.le_add_right _ _

theorem emptyEvidenceReport_asserts (rs : List String) :
    assertsVerdict (emptyEvidenceReport rs) "NEEDS REVISION" = true ∧
    assertsVerdict (emptyEvidenceReport rs) "APPROVED" = false := by
  unfold emptyEvidenceReport
  rw [assertsVerdict_concat3 _ _ _ _ (by decide),
    assertsVerdict_concat3 _ _ _ _ (by decide)]
  exact ⟨by decide, by decide⟩

/-! ## C5: every retrieval query failing fails closed -/

theorem buildQueriesLoop_len (l : List String) :
    ∀ (seen : List String) (count : Nat), count < maxQueries →
      (buildQueriesLoop l seen count).length + count ≤ maxQueries := by
  induction l with
  | nil =>
    intro seen count h
    simpa [buildQueriesLoop] using h.le
  | cons q rest ih =>
    intro seen count h
    by_cases hk : normalizeQuery q ∈ seen
    · simpa [buildQueriesLoop, hk] using ih seen count h
    · by_cases hc : count + 1 ≥ maxQueries
      · simp only [buildQueriesLoop, if_pos hc, if_neg hk, List.length_singleton]
        omega
      · simp only [buildQueriesLoop, if_neg hc, if_neg hk, List.length_cons]
        have := ih (normalizeQuery q :: seen) (count + 1) (by omega)
        omega

theorem buildDeterministicQueries_len (analysis : Option SubmittalAnalysis) :
    (buildDeterministicQueries analysis).length ≤ maxQueries := by
  unfold buildDeterministicQueries
  simpa using buildQueriesLoop_len _ [] 0 (by decide)

theorem flatten_nil_of_all_nil {α β : Type} (l : List α) (f : α → List β)
    (h : ∀ x ∈ l, f x = []) : (l.map f).flatten = [] := by
  induction l with
  | nil => rfl
  | cons x xs ih =>
    simp only [List.map_cons, List.flatten_cons, h x (by simp)]
    exact ih (fun y hy => h y (by simp [hy]))

/-- C5: if the review reaches retrieval and every query in the built
query set (of size at most 8) fails, each failure degrades to an empty
per-query result, the joined-and-ranked evidence list is empty, and the
pipeline terminates with the fail-closed NEEDS REVISION report (never
APPROVED), with no source references. -/
theorem c5_all_queries_fail_needs_revision
    (deps : PipelineDeps) (pdf : PDFExtraction)
    (hext : deps.extract = Except.ok pdf)
    (hscope : (assessDocumentScope (depAnalysis deps) pdf.rawText).isOutOfScope
        = false)
    (hfail : ∀ q ∈ buildDeterministicQueries (depAnalysis deps),
        ∃ err, deps.retrieve q = Except.error err) :
    (buildDeterministicQueries (depAnalysis deps)).length ≤ maxQueries ∧
    ((buildDeterministicQueries (depAnalysis deps)).map (fun q =>
        match deps.retrieve q with
        | Except.ok rs => rs
        | Except.error _ => ([] : List QCSSearchResult))).flatten = [] ∧
    (runReview deps).segments =
      [(Origin.pipeline,
        emptyEvidenceReport (detectCriticalReasons (depAnalysis deps)))] ∧
    (runReview deps).sources = [] ∧
    assertsVerdict (reportText (runReview deps)) "NEEDS REVISION" = true ∧
    assertsVerdict (reportText (runReview deps)) "APPROVED" = false := by
  have hflat :
      ((buildDeterministicQueries (depAnalysis deps)).map (fun q =>
        match deps.retrieve q with
        | Except.ok rs => rs
        | Except.error _ => ([] : List QCSSearchResult))).flatten = [] := by
    apply flatten_nil_of_all_nil
    intro q hq
    obtain ⟨err, he⟩ := hfail q hq
    simp [he]
  have hrun : (runReview deps).segments =
      [(Origin.pipeline,
        emptyEvidenceReport (detectCriticalReasons (depAnalysis deps)))] ∧
      (runReview deps).sources = [] := by
    simp only [runReview, hext]
    rw [if_neg (by simp [hscope])]
    rw [hflat]
    exact ⟨rfl, rfl⟩
  have htext := reportText_single_of _ _ _ hrun.1
  refine ⟨buildDeterministicQueries_len _, hflat, hrun.1, hrun.2, ?_, ?_⟩
  · rw [htext]
    exact (emptyEvidenceReport_asserts _).1
  · rw [htext]
    exact (emptyEvidenceReport_asserts _).2

/-- C5 witness at a fully concrete input: the index is down for every
query. -/
theorem c5_witness :
    (buildDeterministicQueries (depAnalysis c5Deps)).length ≤ maxQueries ∧
    (runReview c5Deps).segments =
      [(Origin.pipeline,
        emptyEvidenceReport (detectCriticalReasons (depAnalysis c5Deps)))] ∧
    assertsVerdict (reportText (runReview c5Deps)) "NEEDS REVISION" = true ∧
    assertsVerdict (reportText (runReview c5Deps)) "APPROVED" = false :=
  ⟨(c5_all_queries_fail_needs_revision c5Deps ⟨""⟩ rfl (by decide)
      (fun q _ => ⟨"index unreachable", rfl⟩)).1,
   (c5_all_queries_fail_needs_revision c5Deps ⟨""⟩ rfl (by decide)
      (fun q _ => ⟨"index unreachable", rfl⟩)).2.2.1,
   (c5_all_queries_fail_needs_revision c5Deps ⟨""⟩ rfl (by decide)
      (fun q _ => ⟨"index unreachable", rfl⟩)).2.2.2.2.1,
   (c5_all_queries_fail_needs_revision c5Deps ⟨""⟩ rfl (by decide)
      (fun q _ => ⟨"index unreachable", rfl⟩)).2.2.2.2.2⟩

/-! ## C3: superseded-standard rule and the forced verdict -/

theorem listHasSub_append_left (p s t : List Char)
    (h : listHasSub p s = true) : listHasSub p (s ++ t) = true := by
  induction s with
  | nil =>
    cases p with
    | nil =>
      have : ∀ u : List Char, listHasSub [] u = true := by
        intro u
        cases u <;> simp [listHasSub, listStarts]
      simpa using this t
    | cons q qs => exact absurd h (by simp [listHasSub, listStarts])
  | cons c cs ih =>
    simp only [listHasSub, Bool.or_eq_true] at h
    rcases h with h | h
    · simp only [List.cons_append, listHasSub, Bool.or_eq_true]
      exact Or.inl (by simpa using listStarts_mono _ _ t h)
    · simp only [List.cons_append, listHasSub, Bool.or_eq_true]
      exact Or.inr (by simpa using ih h)

theorem hasSub_append_left (s t p : String)
    (h : hasSub s p = true) : hasSub (s ++ t) p = true := by
  unfold hasSub at *
  rw [strData_append]
  exact listHasSub_append_left _ _ _ h

/-- C3, amended: for every analysis that references QCS 2014 (by the
source's own test over standards, findings and title) without confirming
QCS 2024, the critical-reason detector returns a non-empty list, and the
report prompt handed to the generation step carries the mandatory
`NEEDS REVISION` block. (The pipeline does not post-check the generated
verdict; see the counterexample.) -/
theorem c3_qcs2014_forces_mandatory_block (a : SubmittalAnalysis)
    (h14 : qcs2014Test (String.intercalate " " a.standardsCited ++ " " ++
        String.intercalate " " a.keyFindings ++ " " ++ a.title) = true)
    (h24 : qcs2024Test (lowerStr (String.intercalate " " a.standardsCited ++
        " " ++ String.intercalate " " a.keyFindings)) = false) :
    detectCriticalReasons (some a) ≠ [] ∧
    qcs2014Reason ∈ detectCriticalReasons (some a) ∧
    ∀ refs, hasSub
        (reportPrompt (some a) refs (detectCriticalReasons (some a)))
        "Mandatory verdict: NEEDS REVISION" = true := by
  have hreasons : detectCriticalReasons (some a) =
      qcs2014Reason ::
        (if fireScopeTest ((a.title ++ " " ++ optStr a.project ++ " " ++
              String.intercalate " " (a.materials.map (fun m => m.name)))
                |> lowerStr) &&
            !(a.certificates.any (fun c => qcdEvidenceTest
              (c.type ++ " " ++ optStr c.issuer ++ " " ++ optStr c.reference)))
          then [fireSafetyReason] else []) := by
    simp only [detectCriticalReasons, h14, h24]
    simp
  refine ⟨by rw [hreasons]; simp, by rw [hreasons]; simp, ?_⟩
  intro refs
  have hfvb : strStarts
      (forcedVerdictBlock (detectCriticalReasons (some a)))
      "Mandatory verdict: NEEDS REVISION" = true := by
    unfold forcedVerdictBlock
    rw [if_pos (by rw [hreasons]; simp)]
    apply strStarts_append_right
    decide
  unfold reportPrompt
  apply hasSub_append_left
  apply hasSub_append_left
  apply hasSub_append_left
  apply hasSub_append_left
  apply hasSub_append_right
  exact hasSub_of_starts _ _ hfvb

/-- C3 amended-claim witness at a concrete analysis. -/
theorem c3_witness :
    detectCriticalReasons (some c3Analysis) ≠ [] ∧
    hasSub (reportPrompt (some c3Analysis) []
        (detectCriticalReasons (some c3Analysis)))
      "Mandatory verdict: NEEDS REVISION" = true :=
  ⟨(c3_qcs2014_forces_mandatory_block c3Analysis (by decide) (by decide)).1,
   (c3_qcs2014_forces_mandatory_block c3Analysis (by decide)
      (by decide)).2.2 []⟩



/-- C3 counterexample: a concrete run in which the analysis cites only
QCS 2014 (the detector fires), retrieval succeeds, and the generation
step outputs an APPROVED report; the pipeline streams that verdict
unchanged — the emitted report asserts APPROVED, not NEEDS REVISION, so
the forced verdict is a prompt obligation, not a pipeline invariant. -/
theorem c3_counterexample :
    detectCriticalReasons (some c3Analysis) = [qcs2014Reason] ∧
    (runReview c3Deps).segments.head? =
      some (Origin.generation, c3ApprovedText) ∧
    assertsVerdict (reportText (runReview c3Deps)) "APPROVED" = true ∧
    assertsVerdict (reportText (runReview c3Deps)) "NEEDS REVISION" =
      false := by
  refine ⟨by decide, ?_, ?_, ?_⟩ <;> decide

/-! ## C1: fail-closed branches never assert APPROVED -/

theorem mem_cons_ite {α : Type} (s x y : α) (c : Prop) [Decidable c]
    (h : s ∈ x :: (if c then ([] : List α) else [y])) : s = x ∨ s = y := by
  split at h
  · simp only [List.mem_singleton] at h
    exact Or.inl h
  · simpa using h

theorem assertsVerdict_newline_lead (c v : String) :
    assertsVerdict ("\n\n" ++ c) v = false := by
  cases c with | mk cd =>
  cases v with | mk vd =>
  rfl

theorem outOfScopeReport_not_approved (s : String) :
    assertsVerdict (outOfScopeReport s) "APPROVED" = false := by
  unfold outOfScopeReport
  rw [assertsVerdict_concat3 _ _ _ _ (by decide)]
  decide

theorem outOfScopeReport_not_needs_revision (s : String) :
    assertsVerdict (outOfScopeReport s) "NEEDS REVISION" = false := by
  unfold outOfScopeReport
  rw [assertsVerdict_concat3 _ _ _ _ (by decide)]
  decide

/-- C1: in every execution of the deterministic PDF review pipeline,
each text segment asserted by pipeline code (as opposed to text produced
by the generation step) either states the verdict NEEDS REVISION, states
the verdict REJECTED, or states no verdict at all (the appended citation
section); in particular no pipeline-asserted segment ever states
APPROVED. The extraction-failure, empty-evidence, generation-fallback
and internal-error templates state NEEDS REVISION and the out-of-scope
template states REJECTED. -/
theorem c1_no_pipeline_approved (deps : PipelineDeps) :
    (∀ seg ∈ (runReview deps).segments, seg.1 = Origin.pipeline →
      assertsVerdict seg.2 "APPROVED" = false ∧
      (assertsVerdict seg.2 "NEEDS REVISION" = true ∨
       assertsVerdict seg.2 "REJECTED" = true ∨
       ∀ v, assertsVerdict seg.2 v = false)) ∧
    assertsVerdict extractionFailureReport "NEEDS REVISION" = true ∧
    (∀ s, assertsVerdict (outOfScopeReport s) "REJECTED" = true) ∧
    (∀ rs, assertsVerdict (emptyEvidenceReport rs) "NEEDS REVISION" = true) ∧
    assertsVerdict genFallbackReport "NEEDS REVISION" = true ∧
    assertsVerdict internalErrorReport "NEEDS REVISION" = true := by
  refine ⟨?_, by decide, outOfScopeReport_asserts_rejected,
    fun rs => (emptyEvidenceReport_asserts rs).1, by decide, by decide⟩
  intro seg hmem hpip
  cases hext : deps.extract with
  | error e =>
    simp only [runReview, hext] at hmem
    simp only [List.mem_singleton] at hmem
    subst hmem
    exact ⟨by decide, Or.inl (by decide)⟩
  | ok pdf =>
    simp only [runReview, hext] at hmem
    split at hmem
    · simp only [List.mem_singleton] at hmem
      subst hmem
      exact ⟨outOfScopeReport_not_approved _,
        Or.inr (Or.inl (outOfScopeReport_asserts_rejected _))⟩
    · split at hmem
      · simp only [List.mem_singleton] at hmem
        subst hmem
        exact ⟨(emptyEvidenceReport_asserts _).2,
          Or.inl (emptyEvidenceReport_asserts _).1⟩
      · split at hmem
        · -- generation succeeded
          rcases mem_cons_ite _ _ _ _ hmem with hmem | hmem
          · subst hmem
            exact absurd hpip (by simp)
          · subst hmem
            exact ⟨assertsVerdict_newline_lead _ _,
              Or.inr (Or.inr (fun v => assertsVerdict_newline_lead _ _))⟩
        · -- generation failed: partial text, fallback, maybe citations
          rcases List.mem_cons.1 hmem with hmem | hmem
          · subst hmem
            exact absurd hpip (by simp)
          · rcases mem_cons_ite _ _ _ _ hmem with hmem | hmem
            · subst hmem
              exact ⟨by decide, Or.inl (by decide)⟩
            · subst hmem
              exact ⟨assertsVerdict_newline_lead _ _,
                Or.inr (Or.inr (fun v => assertsVerdict_newline_lead _ _))⟩

/-- C1 witness at a concrete failing extraction. -/
theorem c1_witness :
    assertsVerdict extractionFailureReport "APPROVED" = false ∧
    assertsVerdict internalErrorReport "NEEDS REVISION" = true :=
  ⟨((c1_no_pipeline_approved c1Deps).1
      (Origin.pipeline, extractionFailureReport) (by decide) rfl).1,
   (c1_no_pipeline_approved c1Deps).2.2.2.2.2⟩

/-! ## C2: `rankAndSelect` — dedup, preference, order and caps -/

theorem mem_upsertRow (acc : List QCSSearchResult)
    (row e : QCSSearchResult) (h : e ∈ upsertRow acc row) :
    e ∈ acc ∨ e = row := by
  induction acc with
  | nil => simpa [upsertRow] using h
  | cons a rest ih =>
    by_cases hk : clauseKey a = clauseKey row
    · simp only [upsertRow, if_pos hk] at h
      rcases List.mem_cons.1 h with h | h
      · split at h
        · exact Or.inr h
        · exact Or.inl (by simp [h])
      · exact Or.inl (List.mem_cons_of_mem _ h)
    · simp only [upsertRow, if_neg hk] at h
      rcases List.mem_cons.1 h with h | h
      · exact Or.inl (by simp [h])
      · rcases ih h with h | h
        · exact Or.inl (List.mem_cons_of_mem _ h)
        · exact Or.inr h

theorem keys_upsertRow (acc : List QCSSearchResult)
    (row : QCSSearchResult) :
    (upsertRow acc row).map clauseKey =
      if clauseKey row ∈ acc.map clauseKey then acc.map clauseKey
      else acc.map clauseKey ++ [clauseKey row] := by
  induction acc with
  | nil => simp [upsertRow]
  | cons a rest ih =>
    by_cases hk : clauseKey a = clauseKey row
    · simp only [upsertRow, if_pos hk, List.map_cons]
      rw [if_pos (List.mem_cons.2 (Or.inl hk.symm))]
      have hhead : clauseKey (if preferNew a row then row else a) =
          clauseKey a := by
        split
        · exact hk.symm
        · rfl
      rw [hhead]
    · simp only [upsertRow, if_neg hk, List.map_cons, ih]
      by_cases hmem : clauseKey row ∈ rest.map clauseKey
      · rw [if_pos hmem, if_pos (by simp [hmem])]
      · rw [if_neg hmem, if_neg ?hn]
        · simp
        case hn =>
          simp only [List.mem_cons]
          rintro (h | h)
          · exact hk h.symm
          · exact hmem h

theorem nodup_keys_upsertRow (acc : List QCSSearchResult)
    (row : QCSSearchResult) (h : (acc.map clauseKey).Nodup) :
    ((upsertRow acc row).map clauseKey).Nodup := by
  rw [keys_upsertRow]
  split
  · exact h
  · next hnot =>
    simp only [List.nodup_append, h, List.nodup_cons, List.not_mem_nil,
      not_false_iff, List.nodup_nil, and_self, true_and]
    intro x hx
    simp only [List.mem_singleton]
    intro he
    exact hnot (he ▸ hx)

theorem foldl_upsert_nodup (rows : List QCSSearchResult) :
    ∀ acc, (acc.map clauseKey).Nodup →
      ((List.foldl upsertRow acc rows).map clauseKey).Nodup := by
  induction rows with
  | nil => intro acc h; simpa using h
  | cons r rest ih => intro acc h; exact ih _ (nodup_keys_upsertRow _ _ h)

theorem dedup_nodup_keys (rows : List QCSSearchResult) :
    ((dedupByClause rows).map clauseKey).Nodup :=
  foldl_upsert_nodup rows [] (by simp)

theorem eq_of_mem_same_key (acc : List QCSSearchResult)
    (h : (acc.map clauseKey).Nodup) (a b : QCSSearchResult)
    (ha : a ∈ acc) (hb : b ∈ acc) (hk : clauseKey a = clauseKey b) :
    a = b := by
  induction acc with
  | nil => cases ha
  | cons x rest ih =>
    simp only [List.map_cons, List.nodup_cons] at h
    rcases List.mem_cons.1 ha with ha' | ha' <;>
      rcases List.mem_cons.1 hb with hb' | hb'
    · rw [ha', hb']
    · exfalso
      apply h.1
      rw [← ha', hk]
      exact List.mem_map_of_mem _ hb'
    · exfalso
      apply h.1
      rw [← hb', ← hk]
      exact List.mem_map_of_mem _ ha'
    · exact ih h.2 ha' hb'

theorem beats_refl (r : QCSSearchResult) : Beats r r :=
  fun _ => ⟨fun h => h, fun _ => le_refl _⟩

theorem beats_transfer (a r : QCSSearchResult)
    (hk : clauseKey a = clauseKey r) (hp : preferNew a r = true)
    (x : QCSSearchResult) (hax : Beats a x) : Beats r x := by
  intro hkey
  have hkxa : clauseKey x = clauseKey a := by rw [hkey, ← hk]
  obtain ⟨h1, h2⟩ := hax hkxa
  unfold preferNew at hp
  simp only [Bool.or_eq_true, Bool.and_eq_true, Bool.not_eq_true',
    decide_eq_true_eq] at hp
  rcases hp with ⟨hag, hrg⟩ | ⟨heq, hsc⟩
  · constructor
    · intro _
      exact hrg
    · intro hxr
      exfalso
      have hx : x.isGraph = false := by rw [hxr, hrg]
      have := h1 hx
      rw [this] at hag
      exact Bool.false_ne_true hag
  · constructor
    · intro hx
      rw [← heq]
      exact h1 hx
    · intro hxr
      have hxa : x.isGraph = a.isGraph := by rw [hxr, heq]
      exact le_of_lt (lt_of_le_of_lt (h2 hxa) hsc)

theorem not_preferNew_beats (a row : QCSSearchResult)
    (hnp : preferNew a row = false) : Beats a row := by
  intro _
  constructor
  · intro hrv
    cases hag : a.isGraph
    · rfl
    · exfalso
      rw [preferNew, hag, hrv] at hnp
      simp at hnp
  · intro heq
    rcases le_or_lt row.score a.score with hle | hlt
    · exact hle
    · exfalso
      have hpref : preferNew a row = true := by
        unfold preferNew
        rw [decide_eq_true heq.symm, decide_eq_true hlt]
        simp
      rw [hpref] at hnp
      simp at hnp

theorem exists_upsert_entry (acc : List QCSSearchResult)
    (row : QCSSearchResult) :
    ∃ a' ∈ upsertRow acc row,
      clauseKey a' = clauseKey row ∧ Beats a' row := by
  induction acc with
  | nil => exact ⟨row, by simp [upsertRow], rfl, beats_refl row⟩
  | cons a rest ih =>
    by_cases hk : clauseKey a = clauseKey row
    · refine ⟨if preferNew a row then row else a, ?_, ?_, ?_⟩
      · simp only [upsertRow, if_pos hk]
        exact List.mem_cons_self _ _
      · split
        · rfl
        · exact hk
      · split
        · exact beats_refl row
        · next hp => exact not_preferNew_beats a row (by simpa using hp)
    · obtain ⟨a', hmem, hkey, hbeats⟩ := ih
      refine ⟨a', ?_, hkey, hbeats⟩
      simp only [upsertRow, if_neg hk]
      exact List.mem_cons_of_mem _ hmem

theorem mem_upsertRow_of_ne_key (acc : List QCSSearchResult)
    (row a : QCSSearchResult) (ha : a ∈ acc)
    (hk : clauseKey a ≠ clauseKey row) : a ∈ upsertRow acc row := by
  induction acc with
  | nil => cases ha
  | cons x rest ih =>
    rcases List.mem_cons.1 ha with h | h
    · subst h
      simp only [upsertRow, if_neg hk]
      exact List.mem_cons_self _ _
    · by_cases hkx : clauseKey x = clauseKey row
      · simp only [upsertRow, if_pos hkx]
        exact List.mem_cons_of_mem _ h
      · simp only [upsertRow, if_neg hkx]
        exact List.mem_cons_of_mem _ (ih h)

theorem upsert_same_key_step (acc : List QCSSearchResult)
    (row a : QCSSearchResult) (hnd : (acc.map clauseKey).Nodup)
    (ha : a ∈ acc) (hk : clauseKey a = clauseKey row) :
    (if preferNew a row then row else a) ∈ upsertRow acc row := by
  induction acc with
  | nil => cases ha
  | cons x rest ih =>
    simp only [List.map_cons, List.nodup_cons] at hnd
    rcases List.mem_cons.1 ha with h | h
    · subst h
      simp only [upsertRow, if_pos hk]
      exact List.mem_cons_self _ _
    · by_cases hkx : clauseKey x = clauseKey row
      · exfalso
        apply hnd.1
        rw [hkx, ← hk]
        exact List.mem_map_of_mem _ h
      · simp only [upsertRow, if_neg hkx]
        exact List.mem_cons_of_mem _ (ih hnd.2 h)

theorem foldl_upsert_spec (rows : List QCSSearchResult) :
    ∀ acc : List QCSSearchResult, (acc.map clauseKey).Nodup →
      ∀ e ∈ List.foldl upsertRow acc rows,
        (∀ r ∈ rows, Beats e r) ∧ (e ∈ acc ∨ e ∈ rows) ∧
        (∀ a ∈ acc, clauseKey a = clauseKey e →
          ∀ x, Beats a x → Beats e x) := by
  induction rows with
  | nil =>
    intro acc hnd e he
    simp only [List.foldl_nil] at he
    refine ⟨by simp, Or.inl he, ?_⟩
    intro a ha hk x hax
    have heq : a = e := eq_of_mem_same_key acc hnd a e ha he hk
    rwa [← heq]
  | cons r0 rest ih =>
    intro acc hnd e he
    simp only [List.foldl_cons] at he
    have hnd' := nodup_keys_upsertRow acc r0 hnd
    obtain ⟨hrest, hmem', hdom'⟩ := ih (upsertRow acc r0) hnd' e he
    have hbr0 : Beats e r0 := by
      by_cases hke : clauseKey r0 = clauseKey e
      · obtain ⟨a', hmem'', hkey', hbeats'⟩ := exists_upsert_entry acc r0
        exact hdom' a' hmem'' (by rw [hkey', hke]) r0 hbeats'
      · exact fun hkk => absurd hkk hke
    refine ⟨?_, ?_, ?_⟩
    · intro r hr
      rcases List.mem_cons.1 hr with h | h
      · exact h ▸ hbr0
      · exact hrest r h
    · rcases hmem' with h | h
      · rcases mem_upsertRow acc r0 e h with h' | h'
        · exact Or.inl h'
        · exact Or.inr (h' ▸ List.mem_cons_self _ _)
      · exact Or.inr (List.mem_cons_of_mem _ h)
    · intro a ha hk x hax
      by_cases hka : clauseKey a = clauseKey r0
      · have hdesc := upsert_same_key_step acc r0 a hnd ha hka
        have hbx : Beats (if preferNew a r0 then r0 else a) x := by
          split
          · next hp => exact beats_transfer a r0 hka hp x hax
          · exact hax
        have hkdesc :
            clauseKey (if preferNew a r0 then r0 else a) = clauseKey e := by
          split
          · rw [← hka]
            exact hk
          · exact hk
        exact hdom' _ hdesc hkdesc x hbx
      · exact hdom' a (mem_upsertRow_of_ne_key acc r0 a ha hka) hk x hax

theorem dedup_spec (rows : List QCSSearchResult) :
    ∀ e ∈ dedupByClause rows, (∀ r ∈ rows, Beats e r) ∧ e ∈ rows := by
  intro e he
  obtain ⟨h1, h2, _⟩ := foldl_upsert_spec rows [] (by simp) e he
  refine ⟨h1, ?_⟩
  rcases h2 with h | h
  · cases h
  · exact h

theorem rankLe_total (a b : QCSSearchResult) :
    rankLe a b = true ∨ rankLe b a = true := by
  unfold rankLe
  by_cases h : a.isGraph = b.isGraph
  · rw [if_pos h, if_pos h.symm]
    rcases le_total a.score b.score with hle | hle
    · right
      simpa using hle
    · left
      simpa using hle
  · rw [if_neg h, if_neg (fun hh => h hh.symm)]
    cases hag : a.isGraph
    · left
      simp
    · right
      cases hbg : b.isGraph
      · simp
      · exact absurd (hag.trans hbg.symm) h

theorem rankLe_trans (a b c : QCSSearchResult)
    (hab : rankLe a b = true) (hbc : rankLe b c = true) :
    rankLe a c = true := by
  unfold rankLe at *
  cases hA : a.isGraph <;> cases hB : b.isGraph <;> cases hC : c.isGraph <;>
    simp_all <;> exact le_trans hbc hab

theorem insertRanked_perm (a : QCSSearchResult)
    (l : List QCSSearchResult) : List.Perm (insertRanked a l) (a :: l) := by
  induction l with
  | nil => exact List.Perm.refl _
  | cons b rest ih =>
    unfold insertRanked
    split
    · exact (List.Perm.cons b ih).trans (List.Perm.swap a b rest)
    · exact List.Perm.refl _

theorem mem_insertRanked (a : QCSSearchResult) (l : List QCSSearchResult)
    (x : QCSSearchResult) (h : x ∈ insertRanked a l) : x = a ∨ x ∈ l := by
  have := (insertRanked_perm a l).mem_iff.1 h
  simpa using this

theorem insertRanked_pairwise (a : QCSSearchResult)
    (l : List QCSSearchResult)
    (h : l.Pairwise (fun u v => rankLe u v = true)) :
    (insertRanked a l).Pairwise (fun u v => rankLe u v = true) := by
  induction l with
  | nil => simp [insertRanked]
  | cons b rest ih =>
    rcases List.pairwise_cons.1 h with ⟨hb, hrest⟩
    unfold insertRanked
    split
    · next hba =>
      refine List.pairwise_cons.2 ⟨?_, ih hrest⟩
      intro x hx
      rcases mem_insertRanked a rest x hx with h' | h'
      · exact h' ▸ hba
      · exact hb x h'
    · next hba =>
      have hab : rankLe a b = true := by
        rcases rankLe_total a b with h' | h'
        · exact h'
        · exact absurd h' hba
      refine List.pairwise_cons.2 ⟨?_, h⟩
      intro x hx
      rcases List.mem_cons.1 hx with h' | h'
      · exact h' ▸ hab
      · exact rankLe_trans a b x hab (hb x h')

theorem sortRanked_perm (rows : List QCSSearchResult) :
    List.Perm (sortRanked rows) rows := by
  suffices h : ∀ acc, List.Perm
      (List.foldl (fun acc r => insertRanked r acc) acc rows)
      (rows ++ acc) by
    simpa using h []
  induction rows with
  | nil => intro acc; simp
  | cons r rest ih =>
    intro acc
    simp only [List.foldl_cons]
    exact (ih (insertRanked r acc)).trans
      ((List.Perm.append_left rest (insertRanked_perm r acc)).trans
        List.perm_middle)

theorem sortRanked_pairwise (rows : List QCSSearchResult) :
    (sortRanked rows).Pairwise (fun u v => rankLe u v = true) := by
  suffices h : ∀ acc, acc.Pairwise (fun u v => rankLe u v = true) →
      (List.foldl (fun acc r => insertRanked r acc) acc rows).Pairwise
        (fun u v => rankLe u v = true) by
    exact h [] (by simp)
  induction rows with
  | nil => intro acc h; simpa using h
  | cons r rest ih =>
    intro acc h
    exact ih _ (insertRanked_pairwise r acc h)

theorem selectLoop_sublist (mt mg : Nat) (l : List QCSSearchResult) :
    ∀ s g, List.Sublist (selectLoop mt mg l s g) l := by
  induction l with
  | nil => intro s g; simp [selectLoop]
  | cons row rest ih =>
    intro s g
    unfold selectLoop
    split
    · exact List.Sublist.cons _ (ih _ _)
    · split
      · exact List.Sublist.cons₂ _ (List.nil_sublist rest)
      · exact List.Sublist.cons₂ _ (ih _ _)

theorem selectLoop_length (mt mg : Nat) (l : List QCSSearchResult) :
    ∀ s g, s < mt → (selectLoop mt mg l s g).length + s ≤ mt := by
  induction l with
  | nil =>
    intro s g h
    simp only [selectLoop, List.length_nil]
    omega
  | cons row rest ih =>
    intro s g h
    unfold selectLoop
    split
    · exact ih s g h
    · split
      · next hge =>
        simp only [List.length_singleton]
        omega
      · next hlt =>
        have := ih (s + 1) (if row.isGraph then g + 1 else g) (by omega)
        simp only [List.length_cons]
        omega

theorem selectLoop_graph_count (mt mg : Nat)
    (l : List QCSSearchResult) :
    ∀ s g, (selectLoop mt mg l s g).countP (fun r => r.isGraph) ≤ mg - g := by
  induction l with
  | nil => intro s g; simp [selectLoop]
  | cons row rest ih =>
    intro s g
    unfold selectLoop
    split
    · exact ih s g
    · next hskip =>
      cases hrg : row.isGraph
      · split
        · simp [List.countP_cons, hrg]
        · have := ih (s + 1) g
          simp only [List.countP_cons, hrg, if_neg (by simp : ¬false = true),
            Bool.false_eq_true]
          simpa [hrg] using this
      · have hg : g < mg := by
        
          rcases Nat.lt_or_ge g mg with h | h
          · exact h
          · exfalso
            apply hskip
            rw [hrg]
            simp only [Bool.true_and, decide_eq_true_eq]
            omega
        split
        · simp only [List.countP_cons, List.countP_nil, hrg]
          try simp
          omega
        · have := ih (s + 1) (g + 1)
          simp only [List.countP_cons, hrg]
          try simp
          try simp only [hrg] at this
          try simp at this
          omega

/-- C2: for every input row list, `rankAndSelect rows 6 4` (the caps used
by the pipeline) returns `rankAndSelectRows rows 6 4` formatted as
references, where the selected rows (i) have pairwise-distinct
(section, part, clause) keys, (ii) all come from the input, (iii) per
key beat every input row with the same key — in particular a graph row
never survives when a vector row with its key is in the input, and the
survivor's score dominates same-origin rows —, (iv) are ordered
vector-origin first and then by score descending, and (v) number at most
6 with at most 4 graph-origin entries. -/
theorem c2_rankAndSelect_spec (rows : List QCSSearchResult) :
    rankAndSelect rows 6 4 =
      (rankAndSelectRows rows 6 4).map buildReference ∧
    ((rankAndSelectRows rows 6 4).map clauseKey).Nodup ∧
    (∀ e ∈ rankAndSelectRows rows 6 4, e ∈ rows) ∧
    (∀ e ∈ rankAndSelectRows rows 6 4, ∀ r ∈ rows,
      clauseKey r = clauseKey e →
        (r.isGraph = false → e.isGraph = false) ∧
        (r.isGraph = e.isGraph → r.score ≤ e.score)) ∧
    (rankAndSelectRows rows 6 4).Pairwise (fun u v => rankLe u v = true) ∧
    (rankAndSelect rows 6 4).length ≤ 6 ∧
    (rankAndSelect rows 6 4).countP
      (fun r => r.source == RefSource.graph) ≤ 4 := by
  have hsub : List.Sublist (rankAndSelectRows rows 6 4)
      (sortRanked (dedupByClause rows)) := selectLoop_sublist _ _ _ _ _
  have hperm := sortRanked_perm (dedupByClause rows)
  have hmemdedup : ∀ e ∈ rankAndSelectRows rows 6 4,
      e ∈ dedupByClause rows := by
    intro e he
    exact hperm.mem_iff.1 (hsub.subset he)
  refine ⟨rfl, ?_, ?_, ?_, ?_, ?_, ?_⟩
  · exact ((hsub.map clauseKey).nodup
      (((hperm.map clauseKey)).nodup_iff.2 (dedup_nodup_keys rows)))
  · intro e he
    exact (dedup_spec rows e (hmemdedup e he)).2
  · intro e he r hr hk
    exact (dedup_spec rows e (hmemdedup e he)).1 r hr hk
  · exact (sortRanked_pairwise (dedupByClause rows)).sublist hsub
  · show ((rankAndSelectRows rows 6 4).map buildReference).length ≤ 6
    rw [List.length_map]
    have := selectLoop_length 6 4 (sortRanked (dedupByClause rows)) 0 0
      (by decide)
    simpa using this
  · show ((rankAndSelectRows rows 6 4).map buildReference).countP
        (fun r => r.source == RefSource.graph) ≤ 4
    rw [List.countP_map]
    have hpt : ∀ r : QCSSearchResult,
        ((fun r => r.source == RefSource.graph) ∘ buildReference) r =
          r.isGraph := by
      intro r
      cases hrg : r.isGraph <;> simp [buildReference, hrg]
    rw [List.countP_congr (fun a _ => by rw [hpt a])]
    have := selectLoop_graph_count 6 4 (sortRanked (dedupByClause rows)) 0 0
    simpa using this

/-- C2 witness: a concrete mixed row list through the exact caps. -/
theorem c2_witness :
    (∀ e ∈ rankAndSelectRows w2Rows 6 4, e ∈ w2Rows) ∧
    (rankAndSelect w2Rows 6 4).length ≤ 6 ∧
    (rankAndSelect w2Rows 6 4).countP
      (fun r => r.source == RefSource.graph) ≤ 4 :=
  ⟨(c2_rankAndSelect_spec w2Rows).2.2.1,
   (c2_rankAndSelect_spec w2Rows).2.2.2.2.2.1,
   (c2_rankAndSelect_spec w2Rows).2.2.2.2.2.2⟩

/-! ## C8: canonical keys and idempotent re-runs -/

theorem keys_upsertKV (s : Store) (k : String)
    (f : Option StoreVal → StoreVal) :
    storeKeys (upsertKV s k f) =
      if k ∈ storeKeys s then storeKeys s else storeKeys s ++ [k] := by
  induction s with
  | nil => simp [upsertKV, storeKeys]
  | cons kv rest ih =>
    obtain ⟨k', v⟩ := kv
    by_cases hk : k' = k
    · subst hk
      simp [upsertKV, storeKeys]
    · simp only [upsertKV, if_neg hk, storeKeys, List.map_cons] at *
      rw [ih]
      by_cases hmem : k ∈ rest.map (fun kv => kv.1)
      · rw [if_pos hmem, if_pos (by simp [hmem])]
      · rw [if_neg hmem, if_neg ?hn]
        · simp
        case hn =>
          simp only [List.mem_cons]
          rintro (h | h)
          · exact hk h.symm
          · exact hmem h

theorem keys_applyOp (s : Store) (op : WOp) :
    storeKeys (applyOp s op) =
      if op.key ∈ storeKeys s then storeKeys s
      else storeKeys s ++ [op.key] := by
  cases op <;> simp [applyOp, WOp.key, keys_upsertKV]

theorem mem_keys_applyOp_of_mem (s : Store) (op : WOp) (k : String)
    (h : k ∈ storeKeys s) : k ∈ storeKeys (applyOp s op) := by
  rw [keys_applyOp]
  split
  · exact h
  · simp [h]

theorem key_mem_applyOp (s : Store) (op : WOp) :
    op.key ∈ storeKeys (applyOp s op) := by
  rw [keys_applyOp]
  split
  · next h => exact h
  · simp

theorem mem_keys_applyOps_of_mem (ops : List WOp) :
    ∀ (s : Store) (k : String), k ∈ storeKeys s →
      k ∈ storeKeys (applyOps ops s) := by
  induction ops with
  | nil => intro s k h; exact h
  | cons o rest ih =>
    intro s k h
    exact ih (applyOp s o) k (mem_keys_applyOp_of_mem s o k h)

theorem key_mem_applyOps (ops : List WOp) :
    ∀ (s : Store) (op : WOp), op ∈ ops →
      op.key ∈ storeKeys (applyOps ops s) := by
  induction ops with
  | nil => intro s op h; cases h
  | cons o rest ih =>
    intro s op h
    rw [show applyOps (o :: rest) s = applyOps rest (applyOp s o) from rfl]
    rcases List.mem_cons.1 h with h | h
    · subst h
      exact mem_keys_applyOps_of_mem rest (applyOp s op) op.key
        (key_mem_applyOp s op)
    · exact ih (applyOp s o) op h

theorem keys_applyOps_stable (ops : List WOp) :
    ∀ s : Store, (∀ op ∈ ops, op.key ∈ storeKeys s) →
      storeKeys (applyOps ops s) = storeKeys s := by
  induction ops with
  | nil => intro s _; rfl
  | cons o rest ih =>
    intro s h
    have h0 : o.key ∈ storeKeys s := h o (List.mem_cons_self _ _)
    have hstep : storeKeys (applyOp s o) = storeKeys s := by
      rw [keys_applyOp, if_pos h0]
    rw [show applyOps (o :: rest) s = applyOps rest (applyOp s o) from rfl]
    rw [ih (applyOp s o) (fun op hop => by
      rw [hstep]
      exact h op (List.mem_cons_of_mem _ hop))]
    exact hstep

/-- C8: entity and relationship keys are canonical and deterministic
(`entityId` is the type joined to the normalized name, a relationship id
concatenates the canonical endpoint ids around the relationship type),
so replaying `writeGraphBatch` on identical extraction output touches
only keys that already exist: the store's key list — hence its entity
and relationship record counts — does not grow. -/
theorem c8_writeGraphBatch_idempotent_keys (ext : Extraction)
    (groups : List ChunkGroup) (s : Store) :
    (∀ t n, entityId t n = t ++ ":" ++ normalizeEntityName n) ∧
    (∀ ents grp rel, (relWrite ents grp rel).relId =
      (relWrite ents grp rel).srcId ++ "--" ++ rel.type ++ "--" ++
        (relWrite ents grp rel).tgtId) ∧
    storeKeys (writeGraphBatch ext groups (writeGraphBatch ext groups s)) =
      storeKeys (writeGraphBatch ext groups s) ∧
    entityRecordCount
        (writeGraphBatch ext groups (writeGraphBatch ext groups s)) =
      entityRecordCount (writeGraphBatch ext groups s) ∧
    relRecordCount
        (writeGraphBatch ext groups (writeGraphBatch ext groups s)) =
      relRecordCount (writeGraphBatch ext groups s) := by
  have hkeys : storeKeys
      (writeGraphBatch ext groups (writeGraphBatch ext groups s)) =
      storeKeys (writeGraphBatch ext groups s) := by
    apply keys_applyOps_stable
    intro op hop
    exact key_mem_applyOps _ _ op hop
  refine ⟨fun t n => rfl, fun ents grp rel => rfl, hkeys, ?_, ?_⟩
  · unfold entityRecordCount
    rw [hkeys]
  · unfold relRecordCount
    rw [hkeys]

/-! ## C9: relationship endpoints and the extraction batch -/

/-- C9, amended: a persisted relationship's endpoint ids name entities
of the same extraction group whenever the extraction output references
entities by name as the schema instructs (first matching entity,
non-empty type); the relationship record itself is always persisted
together with that group's entity writes. Without a matching entity the
writer falls back to a fabricated `MATERIAL:`-typed id — see the
counterexample. -/
theorem c9_endpoints_when_named (ext : Extraction)
    (groups : List ChunkGroup) (gr : GroupResult) (group : ChunkGroup)
    (rel : RelOut) (se te : EntityOut)
    (hgr : gr ∈ ext.groups)
    (hgroup : groups.get? gr.groupIndex = some group)
    (hrel : rel ∈ gr.relationships)
    (hse : gr.entities.find? (fun e => e.name = rel.source) = some se)
    (hte : gr.entities.find? (fun e => e.name = rel.target) = some te)
    (hst : se.type ≠ "") (htt : te.type ≠ "") :
    (relWrite gr.entities group rel).srcId ∈ groupEntityIds gr ∧
    (relWrite gr.entities group rel).tgtId ∈ groupEntityIds gr ∧
    relWrite gr.entities group rel ∈ batchRelWrites ext groups := by
  have hsname : se.name = rel.source := by
    have := List.find?_some hse
    simpa using this
  have htname : te.name = rel.target := by
    have := List.find?_some hte
    simpa using this
  have hsrc : (relWrite gr.entities group rel).srcId =
      entityId se.type se.name := by
    show entityId (endpointType gr.entities rel.source) rel.source = _
    simp [endpointType, hse, hst, hsname]
  have htgt : (relWrite gr.entities group rel).tgtId =
      entityId te.type te.name := by
    show entityId (endpointType gr.entities rel.target) rel.target = _
    simp [endpointType, hte, htt, htname]
  refine ⟨?_, ?_, ?_⟩
  · rw [hsrc]
    exact List.mem_map_of_mem _ (List.mem_of_find?_eq_some hse)
  · rw [htgt]
    exact List.mem_map_of_mem _ (List.mem_of_find?_eq_some hte)
  · unfold batchRelWrites
    apply List.mem_flatten.2
    refine ⟨gr.relationships.map (relWrite gr.entities group), ?_, ?_⟩
    · have hmatch : (match groups.get? gr.groupIndex with
          | none => ([] : List RelWrite)
          | some g => gr.relationships.map (relWrite gr.entities g)) =
            gr.relationships.map (relWrite gr.entities group) := by
        rw [hgroup]
      rw [← hmatch]
      exact List.mem_map_of_mem _ hgr
    · exact List.mem_map_of_mem _ hrel

/-- C9 amended-claim witness at a concrete well-formed extraction. -/
theorem c9_witness :
    (relWrite gr9.entities group9
        ⟨"Portland Cement", "ASTM C150", "MUST_COMPLY_WITH"⟩).srcId ∈
      groupEntityIds gr9 ∧
    (relWrite gr9.entities group9
        ⟨"Portland Cement", "ASTM C150", "MUST_COMPLY_WITH"⟩).tgtId ∈
      groupEntityIds gr9 :=
  ⟨(c9_endpoints_when_named ext9Good [group9] gr9
      group9 ⟨"Portland Cement", "ASTM C150", "MUST_COMPLY_WITH"⟩
      ⟨"Portland Cement", "MATERIAL", none⟩ ⟨"ASTM C150", "STANDARD", none⟩
      (by simp [ext9Good]) rfl (by decide) (by decide) (by decide)
      (by decide) (by decide)).1,
   (c9_endpoints_when_named ext9Good [group9] gr9
      group9 ⟨"Portland Cement", "ASTM C150", "MUST_COMPLY_WITH"⟩
      ⟨"Portland Cement", "MATERIAL", none⟩ ⟨"ASTM C150", "STANDARD", none⟩
      (by simp [ext9Good]) rfl (by decide) (by decide) (by decide)
      (by decide) (by decide)).2.1⟩

/-- C9 counterexample: an extraction output (admitted by the schema)
whose relationship endpoints match no extracted entity still gets its
relationship record persisted, with fabricated `MATERIAL:` endpoint ids,
while no entity record is written in the batch. -/
theorem c9_counterexample :
    batchRelWrites ext9Bad [group9] =
      [{ relId := "MATERIAL:x--REFERENCES--MATERIAL:y"
         srcId := "MATERIAL:x", tgtId := "MATERIAL:y"
         relType := "REFERENCES", provenance := ["chunk1"] }] ∧
    (ext9Bad.groups.map groupEntityIds).flatten = [] ∧
    storeKeys (writeGraphBatch ext9Bad [group9] []) =
      ["g:rel:MATERIAL:x--REFERENCES--MATERIAL:y",
       "g:ent:MATERIAL:x:rels", "g:ent:MATERIAL:y:rels"] ∧
    "g:ent:MATERIAL:x" ∉ storeKeys (writeGraphBatch ext9Bad [group9] []) := by
  refine ⟨?_, ?_, ?_, ?_⟩ <;> decide

end TrueLinki
